import Mathlib

/-!
# moveit: interval timer, progress view and session loop

A shallow embedding of `moveit.go`.

* Go's `int`, `int64` and `time.Duration` are integers reduced to 64 bits by `wrap64`.
* `time.Time` readings of the monotonic clock are integers (nanoseconds); every call of
  `time.Since`/`time.Now` in the source becomes an explicit argument `now`.
* `float64` values are the rationals they denote, rounded to 53 significant bits
  (`F64.round`), plus the non-finite values.
* The terminal libraries (`progress.ViewAs`, `lipgloss` rendering, `Duration.String`) are
  passed in as functions (`TermLib`); the operating system (osascript, the bubbletea program
  run, the console) is passed in as a `World` of answers.
-/

namespace Moveit

/-! ## Machine integers and durations -/

/-- Smallest `int64`. -/
def minInt64 : Int := -9223372036854775808

/-- Largest `int64`. -/
def maxInt64 : Int := 9223372036854775807

/-- Two's-complement reduction of an integer to `int64`. -/
def wrap64 (x : Int) : Int := (x + 9223372036854775808) % 18446744073709551616 - 9223372036854775808

/-- Constant `time.Second`, in nanoseconds. -/
def second : Int := 1000000000

/-- Constant `time.Minute`, in nanoseconds. -/
def minute : Int := 60 * second

/-- Result of `time.Since(start)` read at the instant `now`: the difference `now - start`,
saturated to the range of a `time.Duration` as `Time.Sub` documents. -/
def since (now start : Int) : Int :=
  if now - start > maxInt64 then maxInt64
  else if now - start < minInt64 then minInt64
  else now - start

/-! ## float64 -/

/-- Values of a `float64`: a finite rational, an infinity or not-a-number (the two zeros
are identified). -/
inductive F64 where
  | fin (q : ℚ)
  | posInf
  | negInf
  | nan
  deriving DecidableEq

/-- Nearest integer to `q`, a tie going to the even neighbour. -/
def roundNearestEven (q : ℚ) : Int :=
  let f := ⌊q⌋
  if q - f < 1 / 2 then f
  else if 1 / 2 < q - f then f + 1
  else if f % 2 = 0 then f else f + 1

/-- Rounding of a rational to the nearest number with a 53-bit significand, ties to even
(binary64 rounding; the exponent range is not limited, see `F64.quot`). -/
def F64.round (x : ℚ) : ℚ :=
  if x = 0 then 0
  else if 0 < x then (roundNearestEven (x / (2 : ℚ) ^ (Int.log 2 x - 52)) : ℚ) * (2 : ℚ) ^ (Int.log 2 x - 52)
  else -((roundNearestEven (-x / (2 : ℚ) ^ (Int.log 2 (-x) - 52)) : ℚ) * (2 : ℚ) ^ (Int.log 2 (-x) - 52))

/-- Value of `float64(a) / float64(b)` for two `int64` operands. Both conversions and the
division round to nearest-even. A non-zero quotient of two converted `int64` has magnitude
between `2^-63` and `2^63`, so binary64 overflow and underflow cannot occur; division by
zero gives an infinity, or not-a-number for `0 / 0`. -/
def F64.quot (a b : Int) : F64 :=
  if b = 0 then
    if a = 0 then F64.nan else if 0 < a then F64.posInf else F64.negInf
  else F64.fin (F64.round (F64.round a / F64.round b))

/-- Comparison `x <= y` of two `float64` (false as soon as one side is not-a-number). -/
def F64.le : F64 → F64 → Prop
  | F64.fin a, F64.fin b => a ≤ b
  | F64.fin _, F64.posInf => True
  | F64.negInf, F64.fin _ => True
  | F64.negInf, F64.negInf => True
  | F64.negInf, F64.posInf => True
  | F64.posInf, F64.posInf => True
  | _, _ => False

/-! ## Data model -/

/-- Type `Exercise`. -/
structure Exercise where
  Name : String
  Description : String
  Duration : String
  deriving DecidableEq

/-- Catalog `exercises`. -/
def exercises : List Exercise :=
  [ { Name := "Push-ups",
      Description := "Place your hands shoulder-width apart, keep your body straight, lower yourself until your chest nearly touches the ground, then push back up.",
      Duration := "Do 3 sets of 15 repetitions" },
    { Name := "Bodyweight Squats",
      Description := "Squat down as deep as possible, Alternatively do wide leg squats.",
      Duration := "Do 3 sets of 15 repetitions" },
    { Name := "Plank",
      Description := "Hold a push-up position with your forearms on the ground. Alternatively- do side planks",
      Duration := "Hold for 30 seconds, rest, repeat 3 times" },
    { Name := "Curls",
      Description := "Grab some dumbbells, Work them guns. If you don't have dumbbells do close grip pushups",
      Duration := "20-30 reps, 5 sets" },
    { Name := "Lunges",
      Description := "Walking Lunges",
      Duration := "3 sets of 15 each leg" },
    { Name := "Overhead Press",
      Description := "Grab some dumbbells, put em overhead",
      Duration := "5 sets of 15-20" },
    { Name := "Side Delt Raise",
      Description := "Grab some dumbbells, Start with hands at side, raise them to the side to slightly above shoulder level, lower controlled.",
      Duration := "5 sets of 15-20" } ]

/-- The part of `progress.Model` that the program reads and writes: its `Width`. -/
structure ProgressModel where
  Width : Int
  deriving DecidableEq

/-- Type `model`; `exercise` is a pointer that may be nil. -/
structure model where
  progress : ProgressModel
  start : Int
  duration : Int
  phase : String
  exercise : Option Exercise
  quitting : Bool
  percent : F64
  deriving DecidableEq

/-- Commands handed back to the bubbletea runtime (`nil` is `none` of `Option Cmd`). -/
inductive Cmd where
  | tick (every : Int)
  | quit
  | enterAltScreen
  | batch (a b : Cmd)
  deriving DecidableEq

/-- Messages delivered to `Update`. A key message carries what `msg.String()` returns. -/
inductive Msg where
  | key (s : String)
  | windowSize (Width Height : Int)
  | tick
  | other
  deriving DecidableEq

/-- Function `initialModel`; `p` is the result of `progress.New(...)` and `now` the
reading of `time.Now()`. -/
def initialModel (p : ProgressModel) (now : Int) (duration : Int) (phase : String)
    (exercise : Option Exercise) : model :=
  { progress := p
    start := now
    duration := duration
    phase := phase
    exercise := exercise
    quitting := false
    percent := F64.fin 0 }

/-- Function `tickCmd`: a tick after `time.Second/10` that delivers a `tickMsg`. -/
def tickCmd : Cmd := Cmd.tick (Int.tdiv second 10)

/-- Method `model.Init`. -/
def Init (_m : model) : Cmd := Cmd.batch tickCmd Cmd.enterAltScreen

/-- Method `model.Update`; `now` is the clock reading used by `time.Since(m.start)`. -/
def Update (now : Int) (m : model) (msg : Msg) : model × Option Cmd :=
  match msg with
  | Msg.key s =>
    if s = "q" ∨ s = "ctrl+c" then
      ({ m with quitting := true }, some Cmd.quit)
    else (m, none)
  | Msg.windowSize width _ =>
    let m1 := { m with progress := { m.progress with Width := wrap64 (width - 20) } }
    let m2 := if m1.progress.Width > 80 then { m1 with progress := { m1.progress with Width := 80 } } else m1
    (m2, none)
  | Msg.tick =>
    let elapsed := since now m.start
    if elapsed ≥ m.duration then (m, some Cmd.quit)
    else ({ m with percent := F64.quot elapsed m.duration }, some tickCmd)
  | Msg.other => (m, none)

/-! ## View -/

/-- Helper `lessThanHalf` of package `time`: `uint64(x)+uint64(x) < uint64(y)`. -/
def lessThanHalf (x y : Int) : Bool :=
  decide ((x % 18446744073709551616 + x % 18446744073709551616) % 18446744073709551616
    < y % 18446744073709551616)

/-- Method `Duration.Round` of package `time`: `d` rounded to the nearest multiple of `m`,
halves away from zero; `maxInt64`/`minInt64` when the result does not fit. -/
def DurationRound (d m : Int) : Int :=
  if m ≤ 0 then d
  else
    let r := Int.tmod d m
    if d < 0 then
      let r := wrap64 (-r)
      if lessThanHalf r m then wrap64 (d + r)
      else
        let d1 := wrap64 (wrap64 (d - m) + r)
        if d1 < d then d1 else minInt64
    else
      if lessThanHalf r m then wrap64 (d - r)
      else
        let d1 := wrap64 (wrap64 (d + m) - r)
        if d1 > d then d1 else maxInt64

/-- Library functions used by `View`: `progress.Model.ViewAs`, the `Render` of the lipgloss
style with foreground colour 205, and `Duration.String`. -/
structure TermLib where
  viewAs : ProgressModel → F64 → String
  styleRender : String → String
  durationString : Int → String

/-- The duration that `View` prints: `remaining.Round(time.Second)` with
`remaining := m.duration - time.Since(m.start)`. -/
def viewRemaining (now : Int) (m : model) : Int :=
  DurationRound (wrap64 (m.duration - since now m.start)) second

/-- Method `model.View`; `now` is the clock reading used by `time.Since(m.start)`. -/
def View (lib : TermLib) (now : Int) (m : model) : String :=
  if m.quitting then "Stay Active!"
  else
    let str := "\n " ++ m.phase ++ " - " ++ lib.durationString (viewRemaining now m) ++ " remaining\n\n"
    let str := str ++ (" " ++ lib.viewAs m.progress m.percent ++ "\n\n")
    let str :=
      match m.exercise with
      | some exercise =>
        let str := str ++ lib.styleRender (" Exercise: " ++ exercise.Name ++ "\n")
        let str := str ++ (" " ++ exercise.Description ++ "\n")
        str ++ (" " ++ exercise.Duration ++ "\n")
      | none => str
    str ++ "\n Press q to quit\n"

/-! ## Notifications, timer runs and the session loop -/

/-- The operating system as seen by `main`: the value `strconv.Atoi` returns, the combined
output and error of the k-th `osascript` invocation, the final model and error of the k-th
`Program.Run`, the clock readings and the token read by the i-th `fmt.Scanln`. -/
structure World where
  atoi : String → Int
  osascript : Nat → String → String × Option String
  teaRun : Nat → model → model × Option String
  progressNew : ProgressModel
  nowMono : Nat → Int
  nowUnix : Nat → Int
  scanln : Nat → String

/-- The AppleScript text built by `sendMacNotification`. -/
def notificationScript (title message : String) : String :=
  let message := message.replace "\"" "\\\""
  let title := title.replace "\"" "\\\""
  "\n        tell application \"System Events\"\n            display notification \""
    ++ message ++ "\" with title \"" ++ title
    ++ "\" subtitle \"Workout Timer\" sound name \"Glass\"\n        end tell\n        tell application \"NotificationCenter\"\n            activate\n        end tell"

/-- Function `sendMacNotification`; `exec` runs the script and gives its combined output
and error. The result is the returned error (`none` for nil). -/
def sendMacNotification (exec : String → String × Option String) (title message : String) :
    Option String :=
  match exec (notificationScript title message) with
  | (output, some err) => some ("notification error: " ++ err ++ ", output: " ++ output)
  | (_, none) => none

/-- Function `runTimer`, for the k-th program run; the final model is dropped. -/
def runTimer (w : World) (k : Nat) (duration : Int) (phase : String)
    (exercise : Option Exercise) : Option String :=
  match (w.teaRun k (initialModel w.progressNew (w.nowMono k) duration phase exercise)).2 with
  | some err => some ("timer error : " ++ err)
  | none => none

/-- Expression `exercises[t % int64(len(exercises))]`; `none` is the index-out-of-range
panic. -/
def selectExercise (t : Int) : Option Exercise :=
  let idx := Int.tmod t (exercises.length : Int)
  if 0 ≤ idx ∧ idx < (exercises.length : Int) then exercises.get? idx.toNat else none

/-- What the program does to the outside, in order. -/
inductive Event where
  | notify (title message : String) (result : Option String)
  | runTimer (duration : Int) (phase : String) (exercise : Option Exercise)
  | print (s : String)
  | scanln (input : String)
  deriving DecidableEq

/-- How a run of the program stands: ended by `os.Exit`, by return from `main` (status 0),
by a runtime panic, or still looping when the fuel ran out. -/
inductive Outcome where
  | exit (code : Int)
  | returned
  | panicked
  | running
  deriving DecidableEq

/-- The `for` loop of `main`, from iteration `i` on, for at most `fuel` iterations. -/
def sessionLoop (w : World) (workMinutes workDuration breakDuration : Int) :
    Nat → Nat → List Event × Outcome
  | 0, _ => ([], Outcome.running)
  | fuel + 1, i =>
    let msg1 := "Focus for the next " ++ toString workMinutes ++ " minutes`"
    let e1 := Event.notify "Work Period Starting" msg1
      (sendMacNotification (w.osascript (3 * i)) "Work Period Starting" msg1)
    let e2 := Event.runTimer workDuration "Work Period" none
    match runTimer w (2 * i) workDuration "Work Period" none with
    | some err => ([e1, e2, Event.print ("error " ++ err ++ "\n")], Outcome.exit 1)
    | none =>
      match selectExercise (w.nowUnix i) with
      | none => ([e1, e2], Outcome.panicked)
      | some exercise =>
        let msg3 := "Time for " ++ exercise.Name
        let e3 := Event.notify "Break Time" msg3
          (sendMacNotification (w.osascript (3 * i + 1)) "Break Time" msg3)
        let e4 := Event.runTimer breakDuration "Break Period" (some exercise)
        match runTimer w (2 * i + 1) breakDuration "Break Period" (some exercise) with
        | some err => ([e1, e2, e3, e4, Event.print ("error " ++ err ++ "\n")], Outcome.exit 1)
        | none =>
          let e5 := Event.notify "Time to Focus" "Good Job, Start Focus Time"
            (sendMacNotification (w.osascript (3 * i + 2)) "Time to Focus" "Good Job, Start Focus Time")
          let e6 := Event.print "Press Enter to start next session or press 'q' to quit: "
          let input := w.scanln i
          let e7 := Event.scanln input
          if input = "q" then ([e1, e2, e3, e4, e5, e6, e7], Outcome.returned)
          else
            let rest := sessionLoop w workMinutes workDuration breakDuration fuel (i + 1)
            ([e1, e2, e3, e4, e5, e6, e7] ++ rest.1, rest.2)

/-- Function `main`, run for at most `fuel` iterations of its loop; `args` is `os.Args`. -/
def main (w : World) (args : List String) (fuel : Nat) : List Event × Outcome :=
  if args.length ≠ 3 then
    ([Event.print "Usage: go run main.go <work_duration_minutes> <break_duration_minutes>\n",
      Event.print "Example: go run main.go 25 5\n"], Outcome.exit 1)
  else
    let workMinutes := w.atoi (args.getD 1 "")
    let breakMinutes := w.atoi (args.getD 2 "")
    let workDuration := wrap64 (workMinutes * minute)
    let breakDuration := wrap64 (breakMinutes * minute)
    sessionLoop w workMinutes workDuration breakDuration fuel 0

/-! ## Runs of `Update`, text occurrence and sample worlds -/

/-- The comparison of two `float64` can be computed. -/
instance F64.decidableLe (x y : F64) : Decidable (F64.le x y) := by
  cases x <;> cases y <;> unfold F64.le <;> infer_instance

/-- A `float64` lies in the closed interval from 0 to 1. -/
def F64.inUnit (x : F64) : Prop := F64.le (F64.fin 0) x ∧ F64.le x (F64.fin 1)

/-- Membership of the unit interval can be computed. -/
instance F64.decidableInUnit (x : F64) : Decidable (F64.inUnit x) := by
  unfold F64.inUnit
  infer_instance

/-- The model after the bubbletea runtime has delivered the messages of `steps` in order
to `Update`, each paired with the clock reading at its delivery. -/
def runUpdates (m : model) : List (Int × Msg) → model
  | [] => m
  | step :: rest => runUpdates (Update step.1 m step.2).1 rest

/-- The instants of a list do not decrease and none is before `t0`. -/
def nondecreasingFrom (t0 : Int) : List Int → Bool
  | [] => true
  | t :: rest => decide (t0 ≤ t) && nondecreasingFrom t rest

/-- The text `t` occurs in the text `s` (as `assert.Contains` checks). -/
def occursIn (t s : String) : Prop := ∃ a b : String, s = a ++ t ++ b

/-- A world in which every notification succeeds, every program run ends without error
after the user pressed the quit key (final model with `quitting = true`), the clock stands
at the epoch and the console answers "q". -/
def cancelWorld : World :=
  { atoi := fun s => if s = "25" then 25 else if s = "5" then 5 else 0
    osascript := fun _ _ => ("", none)
    teaRun := fun _ m => ({ m with quitting := true }, none)
    progressNew := { Width := 40 }
    nowMono := fun _ => 0
    nowUnix := fun _ => 0
    scanln := fun _ => "q" }

/-- A world in which every `osascript` invocation fails, every program run completes
without error and without a quit key, and the console answers "q". -/
def failWorld : World :=
  { atoi := fun s => if s = "25" then 25 else if s = "5" then 5 else 0
    osascript := fun _ _ => ("execution error", some "exit status 1")
    teaRun := fun _ m => (m, none)
    progressNew := { Width := 40 }
    nowMono := fun _ => 0
    nowUnix := fun _ => 0
    scanln := fun _ => "q" }

/-- A world in which every notification succeeds, the Work-phase run of the first session
completes and its Break-phase run (program run number 1) fails. -/
def breakFailWorld : World :=
  { atoi := fun s => if s = "25" then 25 else if s = "5" then 5 else 0
    osascript := fun _ _ => ("", none)
    teaRun := fun k m => if k = 1 then (m, some "could not open a new TTY") else (m, none)
    progressNew := { Width := 40 }
    nowMono := fun _ => 0
    nowUnix := fun _ => 0
    scanln := fun _ => "" }

/-- The event with the result of a notification blanked out. -/
def Event.eraseResult : Event → Event
  | Event.notify title message _ => Event.notify title message none
  | e => e

/-! ## Facts about `float64` rounding -/

/-- An integer rounds to itself. -/
theorem roundNearestEven_intCast (z : Int) : roundNearestEven (z : ℚ) = z := by
  simp [roundNearestEven]

/-- The rounded value is at least the floor. -/
theorem roundNearestEven_floor_le (q : ℚ) : ⌊q⌋ ≤ roundNearestEven q := by
  unfold roundNearestEven
  dsimp only
  split_ifs <;> omega

/-- The rounded value is at most the floor plus one. -/
theorem roundNearestEven_le_floor_succ (q : ℚ) : roundNearestEven q ≤ ⌊q⌋ + 1 := by
  unfold roundNearestEven
  dsimp only
  split_ifs <;> omega

/-- Rounding to the nearest integer is monotone. -/
theorem roundNearestEven_mono {p q : ℚ} (h : p ≤ q) : roundNearestEven p ≤ roundNearestEven q := by
  rcases lt_or_eq_of_le (Int.floor_mono h) with hf | hf
  · calc roundNearestEven p ≤ ⌊p⌋ + 1 := roundNearestEven_le_floor_succ p
      _ ≤ ⌊q⌋ := hf
      _ ≤ roundNearestEven q := roundNearestEven_floor_le q
  · unfold roundNearestEven
    dsimp only
    rw [← hf]
    have hpq : p - ⌊p⌋ ≤ q - ⌊p⌋ := by linarith
    split_ifs <;> first | omega | (exfalso; linarith)

/-- Zero is a binary64 number. -/
theorem F64.round_zero : F64.round 0 = 0 := by
  simp [F64.round]

/-- Rounding commutes with negation. -/
theorem F64.round_neg (x : ℚ) : F64.round (-x) = -F64.round x := by
  rcases lt_trichotomy x 0 with h | h | h
  · have h1 : ¬ x = 0 := ne_of_lt h
    have h2 : ¬ 0 < x := not_lt.mpr (le_of_lt h)
    have h3 : 0 < -x := by linarith
    have h4 : ¬ -x = 0 := ne_of_gt h3
    simp [F64.round, h1, h2, h3, h4]
  · subst h; simp [F64.round]
  · have h1 : ¬ x = 0 := ne_of_gt h
    have h3 : ¬ 0 < -x := by linarith
    have h4 : ¬ -x = 0 := by intro hh; apply h1; linarith
    simp [F64.round, h1, h, h3, h4]

/-- Unfolding of the rounding at a positive argument. -/
theorem F64.round_of_pos {x : ℚ} (hx : 0 < x) :
    F64.round x = (roundNearestEven (x / (2 : ℚ) ^ (Int.log 2 x - 52)) : ℚ) * (2 : ℚ) ^ (Int.log 2 x - 52) := by
  simp [F64.round, ne_of_gt hx, hx]

/-- The unit in the last place times `2^52` is the leading power of two. -/
theorem F64.ulp_mul (e : Int) : (4503599627370496 : ℚ) * (2 : ℚ) ^ (e - 52) = (2 : ℚ) ^ e := by
  have h : (4503599627370496 : ℚ) = (2 : ℚ) ^ (52 : Int) := by norm_num
  rw [h, ← zpow_add₀ (by norm_num : (2 : ℚ) ≠ 0)]
  congr 1
  ring

/-- The unit in the last place times `2^53` is the next power of two. -/
theorem F64.ulp_mul_succ (e : Int) :
    (9007199254740992 : ℚ) * (2 : ℚ) ^ (e - 52) = (2 : ℚ) ^ (e + 1) := by
  have h : (9007199254740992 : ℚ) = (2 : ℚ) ^ (53 : Int) := by norm_num
  rw [h, ← zpow_add₀ (by norm_num : (2 : ℚ) ≠ 0)]
  congr 1
  ring

/-- Rounding keeps a positive number within its binade. -/
theorem F64.round_pos_bounds {x : ℚ} (hx : 0 < x) :
    (2 : ℚ) ^ (Int.log 2 x) ≤ F64.round x ∧ F64.round x ≤ (2 : ℚ) ^ (Int.log 2 x + 1) := by
  have hu : (0 : ℚ) < (2 : ℚ) ^ (Int.log 2 x - 52) := zpow_pos (by norm_num) _
  have hlo : (2 : ℚ) ^ (Int.log 2 x) ≤ x := by
    have := Int.zpow_log_le_self (b := 2) (r := x) (by norm_num) hx
    simpa using this
  have hhi : x < (2 : ℚ) ^ (Int.log 2 x + 1) := by
    have := Int.lt_zpow_succ_log_self (b := 2) (by norm_num) x
    simpa using this
  have h52 : ((4503599627370496 : Int) : ℚ) ≤ x / (2 : ℚ) ^ (Int.log 2 x - 52) := by
    rw [le_div_iff₀ hu]
    push_cast
    rw [F64.ulp_mul]
    exact hlo
  have h53 : x / (2 : ℚ) ^ (Int.log 2 x - 52) ≤ ((9007199254740992 : Int) : ℚ) := by
    rw [div_le_iff₀ hu]
    push_cast
    rw [F64.ulp_mul_succ]
    exact le_of_lt hhi
  have r52 := roundNearestEven_mono h52
  have r53 := roundNearestEven_mono h53
  rw [roundNearestEven_intCast] at r52 r53
  have q52 : (4503599627370496 : ℚ) ≤ (roundNearestEven (x / (2 : ℚ) ^ (Int.log 2 x - 52)) : ℚ) := by
    exact_mod_cast r52
  have q53 : (roundNearestEven (x / (2 : ℚ) ^ (Int.log 2 x - 52)) : ℚ) ≤ (9007199254740992 : ℚ) := by
    exact_mod_cast r53
  rw [F64.round_of_pos hx]
  constructor
  · rw [← F64.ulp_mul (Int.log 2 x)]
    exact mul_le_mul_of_nonneg_right q52 (le_of_lt hu)
  · rw [← F64.ulp_mul_succ (Int.log 2 x)]
    exact mul_le_mul_of_nonneg_right q53 (le_of_lt hu)

/-- Rounding keeps a positive number positive. -/
theorem F64.round_pos {x : ℚ} (hx : 0 < x) : 0 < F64.round x :=
  lt_of_lt_of_le (zpow_pos (by norm_num) _) (F64.round_pos_bounds hx).1

/-- Rounding is monotone on the positive numbers. -/
theorem F64.round_mono_pos {x y : ℚ} (hx : 0 < x) (hxy : x ≤ y) : F64.round x ≤ F64.round y := by
  have hy : 0 < y := lt_of_lt_of_le hx hxy
  rcases lt_or_eq_of_le (Int.log_mono_right (b := 2) hx hxy) with hl | hl
  · calc F64.round x ≤ (2 : ℚ) ^ (Int.log 2 x + 1) := (F64.round_pos_bounds hx).2
      _ ≤ (2 : ℚ) ^ (Int.log 2 y) := zpow_le_zpow_right₀ (by norm_num) hl
      _ ≤ F64.round y := (F64.round_pos_bounds hy).1
  · rw [F64.round_of_pos hx, F64.round_of_pos hy, hl]
    have hu : (0 : ℚ) < (2 : ℚ) ^ (Int.log 2 y - 52) := zpow_pos (by norm_num) _
    apply mul_le_mul_of_nonneg_right _ (le_of_lt hu)
    have : roundNearestEven (x / (2 : ℚ) ^ (Int.log 2 y - 52)) ≤ roundNearestEven (y / (2 : ℚ) ^ (Int.log 2 y - 52)) :=
      roundNearestEven_mono (div_le_div_of_nonneg_right hxy (le_of_lt hu))
    exact_mod_cast this

/-- Rounding to binary64 is monotone. -/
theorem F64.round_mono {x y : ℚ} (hxy : x ≤ y) : F64.round x ≤ F64.round y := by
  rcases lt_trichotomy 0 x with hx | hx | hx
  · exact F64.round_mono_pos hx hxy
  · subst hx
    rw [F64.round_zero]
    rcases lt_or_eq_of_le hxy with hy | hy
    · exact le_of_lt (F64.round_pos hy)
    · rw [← hy, F64.round_zero]
  · have hnx : 0 < -x := by linarith
    have hrx : F64.round x < 0 := by
      have := F64.round_pos hnx
      rw [F64.round_neg] at this
      linarith
    rcases lt_trichotomy 0 y with hy | hy | hy
    · exact le_of_lt (lt_trans hrx (F64.round_pos hy))
    · subst hy
      rw [F64.round_zero]; exact le_of_lt hrx
    · have hny : 0 < -y := by linarith
      have := F64.round_mono_pos hny (by linarith : -y ≤ -x)
      rw [F64.round_neg, F64.round_neg] at this
      linarith

/-- One is a binary64 number. -/
theorem F64.round_one : F64.round 1 = 1 := by
  have h := F64.round_of_pos (x := 1) (by norm_num)
  rw [Int.log_one_right] at h
  rw [h]
  have : (1 : ℚ) / (2 : ℚ) ^ ((0 : Int) - 52) = (((2 : Int) ^ (52 : ℕ) : Int) : ℚ) := by
    norm_num [zpow_neg]
  rw [this, roundNearestEven_intCast]
  norm_num [zpow_neg]

/-- A power of two is a binary64 number. -/
theorem F64.round_zpow (k : Int) : F64.round ((2 : ℚ) ^ k) = (2 : ℚ) ^ k := by
  have hx : (0 : ℚ) < (2 : ℚ) ^ k := zpow_pos (by norm_num) _
  have hlog : Int.log 2 ((2 : ℚ) ^ k) = k := by
    have := Int.log_zpow (R := ℚ) (b := 2) (by norm_num) k
    simpa using this
  have hu : (0 : ℚ) < (2 : ℚ) ^ (k - 52) := zpow_pos (by norm_num) _
  have hdiv : (2 : ℚ) ^ k / (2 : ℚ) ^ (k - 52) = ((4503599627370496 : Int) : ℚ) := by
    rw [div_eq_iff (ne_of_gt hu)]
    push_cast
    rw [F64.ulp_mul]
  rw [F64.round_of_pos hx, hlog, hdiv, roundNearestEven_intCast]
  push_cast
  exact F64.ulp_mul k

/-- A positive integer below `2^53` is a binary64 number. -/
theorem F64.round_posInt_of_lt {n : Int} (h0 : 0 < n) (h : n < 9007199254740992) :
    F64.round (n : ℚ) = n := by
  have hx : (0 : ℚ) < (n : ℚ) := by exact_mod_cast h0
  have hlt : (n : ℚ) < ((2 : ℕ) : ℚ) ^ (53 : Int) := by
    have : (n : ℚ) < 9007199254740992 := by exact_mod_cast h
    norm_num
    exact this
  have he : Int.log 2 (n : ℚ) < 53 := (Int.lt_zpow_iff_log_lt (by norm_num) hx).mp hlt
  obtain ⟨k, hk⟩ : ∃ k : ℕ, (k : Int) = 52 - Int.log 2 (n : ℚ) :=
    ⟨(52 - Int.log 2 (n : ℚ)).toNat, by omega⟩
  have hu : (2 : ℚ) ^ (Int.log 2 (n : ℚ) - 52) = ((2 : ℚ) ^ k)⁻¹ := by
    rw [← zpow_natCast, hk, ← zpow_neg]
    congr 1
    ring
  have hpos : (0 : ℚ) < (2 : ℚ) ^ k := pow_pos (by norm_num) _
  rw [F64.round_of_pos hx, hu]
  have : (n : ℚ) / ((2 : ℚ) ^ k)⁻¹ = ((n * 2 ^ k : Int) : ℚ) := by
    push_cast
    field_simp
  rw [this, roundNearestEven_intCast]
  push_cast
  field_simp

/-- Every integer of magnitude below `2^53` is a binary64 number. -/
theorem F64.round_intCast_of_lt {n : Int} (h1 : -9007199254740992 < n)
    (h2 : n < 9007199254740992) : F64.round (n : ℚ) = n := by
  rcases lt_trichotomy 0 n with h | h | h
  · exact F64.round_posInt_of_lt h h2
  · subst h; simp [F64.round]
  · have := F64.round_posInt_of_lt (n := -n) (by omega) (by omega)
    push_cast at this
    rw [F64.round_neg] at this
    linarith

/-- The quotient of a non-negative `int64` by a larger one is a finite value of `[0, 1]`. -/
theorem F64.quot_unit {a b : Int} (ha : 0 ≤ a) (hab : a < b) :
    0 ≤ F64.round (F64.round a / F64.round b) ∧ F64.round (F64.round a / F64.round b) ≤ 1 := by
  have hb : (1 : ℚ) ≤ (b : ℚ) := by exact_mod_cast (by omega : (1 : Int) ≤ b)
  have hrb : 1 ≤ F64.round b := by
    have := F64.round_mono hb
    rwa [F64.round_one] at this
  have hra : 0 ≤ F64.round a := by
    have := F64.round_mono (by exact_mod_cast ha : (0 : ℚ) ≤ (a : ℚ))
    rwa [F64.round_zero] at this
  have hrab : F64.round a ≤ F64.round b :=
    F64.round_mono (by exact_mod_cast le_of_lt hab : (a : ℚ) ≤ (b : ℚ))
  have hpos : 0 < F64.round b := lt_of_lt_of_le one_pos hrb
  constructor
  · have := F64.round_mono (div_nonneg hra (le_of_lt hpos))
    rwa [F64.round_zero] at this
  · have := F64.round_mono ((div_le_one hpos).mpr hrab)
    rwa [F64.round_one] at this

/-- The quotient by a positive `int64` is monotone in the dividend. -/
theorem F64.quot_mono {a a' b : Int} (hb : 0 < b) (h : a ≤ a') :
    F64.round (F64.round a / F64.round b) ≤ F64.round (F64.round a' / F64.round b) := by
  have hb1 : (1 : ℚ) ≤ (b : ℚ) := by exact_mod_cast (by omega : (1 : Int) ≤ b)
  have hrb : 1 ≤ F64.round b := by
    have := F64.round_mono hb1
    rwa [F64.round_one] at this
  have hpos : 0 < F64.round b := lt_of_lt_of_le one_pos hrb
  apply F64.round_mono
  exact div_le_div_of_nonneg_right
    (F64.round_mono (by exact_mod_cast h : (a : ℚ) ≤ (a' : ℚ))) (le_of_lt hpos)

/-- Unfolding of the quotient at a non-zero divisor. -/
theorem F64.quot_of_ne {a b : Int} (hb : b ≠ 0) :
    F64.quot a b = F64.fin (F64.round (F64.round a / F64.round b)) := by
  simp [F64.quot, hb]

/-- The elapsed time is monotone in the clock reading. -/
theorem since_mono {s t t' : Int} (h : t ≤ t') : since t s ≤ since t' s := by
  unfold since minInt64 maxInt64
  split_ifs <;> omega

/-- The elapsed time is not negative once the clock has reached the start. -/
theorem since_nonneg {s t : Int} (h : s ≤ t) : 0 ≤ since t s := by
  unfold since minInt64 maxInt64
  split_ifs <;> omega

/-! ## Update: key presses and window resizes -/

/-- C2: on a key message `Update` returns the quit command exactly when the key is "q" or
"ctrl+c"; in that case it sets `quitting` and changes no other field, and for every other
key it returns the model unchanged with no command. -/
theorem Update_key (now : Int) (m : model) (k : String) :
    ((Update now m (Msg.key k)).2 = some Cmd.quit ↔ (k = "q" ∨ k = "ctrl+c")) ∧
    ((Update now m (Msg.key k)).2 ≠ none ↔ (k = "q" ∨ k = "ctrl+c")) ∧
    ((k = "q" ∨ k = "ctrl+c") →
      (Update now m (Msg.key k)).1.quitting = true ∧
      (Update now m (Msg.key k)).1.progress = m.progress ∧
      (Update now m (Msg.key k)).1.start = m.start ∧
      (Update now m (Msg.key k)).1.duration = m.duration ∧
      (Update now m (Msg.key k)).1.phase = m.phase ∧
      (Update now m (Msg.key k)).1.exercise = m.exercise ∧
      (Update now m (Msg.key k)).1.percent = m.percent) ∧
    (¬(k = "q" ∨ k = "ctrl+c") → Update now m (Msg.key k) = (m, none)) := by
  by_cases h : k = "q" ∨ k = "ctrl+c"
  · simp [Update, h]
  · simp [Update, h]

/-- Witness of `Update_key`: the key "q" on a fresh one-minute model. -/
theorem Update_key_witness :
    (Update 5 (initialModel ⟨40⟩ 0 minute "test" none) (Msg.key "q")).2 = some Cmd.quit ∧
    (Update 5 (initialModel ⟨40⟩ 0 minute "test" none) (Msg.key "q")).1.quitting = true ∧
    Update 5 (initialModel ⟨40⟩ 0 minute "test" none) (Msg.key "x")
      = (initialModel ⟨40⟩ 0 minute "test" none, none) :=
  ⟨(Update_key 5 (initialModel ⟨40⟩ 0 minute "test" none) "q").1.2 (Or.inl rfl),
   ((Update_key 5 (initialModel ⟨40⟩ 0 minute "test" none) "q").2.2.1 (Or.inl rfl)).1,
   (Update_key 5 (initialModel ⟨40⟩ 0 minute "test" none) "x").2.2.2 (by decide)⟩

/-- Reduction to `int64` leaves a value of the `int64` range alone. -/
theorem wrap64_of_range {x : Int} (h1 : minInt64 ≤ x) (h2 : x ≤ maxInt64) : wrap64 x = x := by
  unfold minInt64 at h1
  unfold maxInt64 at h2
  unfold wrap64
  omega

/-- C6: a window-size message of width `w` sets the progress-bar width to
`min (w - 20) 80` (the subtraction being the 64-bit one, which is the exact one for
every `w` at least `minInt64 + 20`), never above 80, leaves the fields start, duration,
phase, exercise, quitting and percent unchanged, and returns no command. -/
theorem Update_windowSize (now : Int) (m : model) (w h : Int) :
    (Update now m (Msg.windowSize w h)).1.progress.Width = min (wrap64 (w - 20)) 80 ∧
    (Update now m (Msg.windowSize w h)).1.progress.Width ≤ 80 ∧
    (minInt64 + 20 ≤ w → w ≤ maxInt64 →
      (Update now m (Msg.windowSize w h)).1.progress.Width = min (w - 20) 80) ∧
    (Update now m (Msg.windowSize w h)).1.start = m.start ∧
    (Update now m (Msg.windowSize w h)).1.duration = m.duration ∧
    (Update now m (Msg.windowSize w h)).1.phase = m.phase ∧
    (Update now m (Msg.windowSize w h)).1.exercise = m.exercise ∧
    (Update now m (Msg.windowSize w h)).1.quitting = m.quitting ∧
    (Update now m (Msg.windowSize w h)).1.percent = m.percent ∧
    (Update now m (Msg.windowSize w h)).2 = none := by
  have key : (Update now m (Msg.windowSize w h)).1.progress.Width = min (wrap64 (w - 20)) 80 := by
    by_cases hw : wrap64 (w - 20) > 80
    · simp only [Update, hw, if_true]
      rw [min_eq_right (le_of_lt hw)]
    · simp only [Update, hw, if_false]
      rw [min_eq_left (not_lt.mp hw)]
  refine ⟨key, ?_, ?_, ?_, ?_, ?_, ?_, ?_, ?_, ?_⟩
  · rw [key]; exact min_le_right _ _
  · intro h1 h2
    rw [key, wrap64_of_range (by unfold minInt64 at *; omega) (by unfold maxInt64 at *; omega)]
  all_goals
    by_cases hw : wrap64 (w - 20) > 80
    · simp [Update, hw]
    · simp [Update, hw]

/-- Witness of `Update_windowSize`: width 100 is capped at 80, width 50 gives 30. -/
theorem Update_windowSize_witness :
    (Update 0 (initialModel ⟨40⟩ 0 minute "test" none) (Msg.windowSize 100 50)).1.progress.Width
      = min (100 - 20) 80 ∧
    (Update 0 (initialModel ⟨40⟩ 0 minute "test" none) (Msg.windowSize 50 50)).1.progress.Width
      = min (50 - 20) 80 :=
  ⟨(Update_windowSize 0 (initialModel ⟨40⟩ 0 minute "test" none) 100 50).2.2.1
      (by decide) (by decide),
   (Update_windowSize 0 (initialModel ⟨40⟩ 0 minute "test" none) 50 50).2.2.1
      (by decide) (by decide)⟩

/-! ## Update: ticks and the clock -/

/-- C8 as stated fails: a cancelled model (`quitting = true`) that receives a late tick
before its duration has elapsed still gets the next-tick command from `Update`. -/
theorem Update_tick_cancelled_counterexample :
    ({ initialModel ⟨40⟩ 0 minute "Work Period" none with quitting := true } : model).quitting = true ∧
    (Update second { initialModel ⟨40⟩ 0 minute "Work Period" none with quitting := true }
      Msg.tick).2 = some tickCmd := by
  decide

/-- C8, amended: on a tick `Update` returns the next-tick command exactly when the elapsed
time is below the duration, whatever the `quitting` flag; once the elapsed time has reached
the duration it returns the quit command and the model unchanged; and no message other
than a tick makes `Update` return a tick command. -/
theorem Update_tick_cmd (now : Int) (m : model) :
    ((Update now m Msg.tick).2 = some tickCmd ↔ since now m.start < m.duration) ∧
    (m.duration ≤ since now m.start → Update now m Msg.tick = (m, some Cmd.quit)) ∧
    (∀ msg : Msg, msg ≠ Msg.tick → (Update now m msg).2 ≠ some tickCmd) := by
  refine ⟨?_, ?_, ?_⟩
  · by_cases h : since now m.start ≥ m.duration
    · simp [Update, h, tickCmd]
    · simp [Update, h]
      exact not_le.mp h
  · intro h
    simp [Update, h]
  · intro msg hmsg
    cases msg with
    | key s =>
      by_cases hk : s = "q" ∨ s = "ctrl+c"
      · simp [Update, hk, tickCmd]
      · simp [Update, hk]
    | windowSize a b => simp [Update]
    | tick => exact absurd rfl hmsg
    | other => simp [Update]

/-- Witness of `Update_tick_cmd`: one minute into a one-minute phase the quit command comes
back, and a key press never yields a tick command. -/
theorem Update_tick_cmd_witness :
    Update minute (initialModel ⟨40⟩ 0 minute "Work Period" none) Msg.tick
      = (initialModel ⟨40⟩ 0 minute "Work Period" none, some Cmd.quit) ∧
    (Update minute (initialModel ⟨40⟩ 0 minute "Work Period" none) (Msg.key "q")).2
      ≠ some tickCmd :=
  ⟨(Update_tick_cmd minute (initialModel ⟨40⟩ 0 minute "Work Period" none)).2.1 (by decide),
   (Update_tick_cmd minute (initialModel ⟨40⟩ 0 minute "Work Period" none)).2.2
      (Msg.key "q") (by decide)⟩

/-! ## Exercise selection -/

/-- C5 as stated fails: for the timestamp -1 Go's remainder is -1, outside `[0, 6]`, and
the indexing panics. -/
theorem selectExercise_negative_counterexample :
    Int.tmod (-1) (exercises.length : Int) = -1 ∧ selectExercise (-1) = none := by
  decide

/-- C5, amended: for every timestamp `t ≥ 0` the index `t % N` with `N = 7` the size of
the catalog lies in `[0, N - 1]`, and `exercises[t % N]` is a member of the catalog whose
Name, Description and Duration are not empty. -/
theorem selectExercise_nonneg (t : Int) (ht : 0 ≤ t) :
    exercises.length = 7 ∧
    0 ≤ Int.tmod t (exercises.length : Int) ∧
    Int.tmod t (exercises.length : Int) ≤ (exercises.length : Int) - 1 ∧
    ∃ e, selectExercise t = some e ∧ e ∈ exercises ∧
      e.Name ≠ "" ∧ e.Description ≠ "" ∧ e.Duration ≠ "" := by
  have hlen : exercises.length = 7 := rfl
  have hmod : Int.tmod t 7 = t % 7 := by
    rw [Int.tmod_eq_emod ht (by decide)]
  have h0 : 0 ≤ t % 7 := Int.emod_nonneg t (by decide)
  have h7 : t % 7 < 7 := Int.emod_lt_of_pos t (by decide)
  refine ⟨hlen, ?_, ?_, ?_⟩
  · rw [hlen]; simpa [hmod] using h0
  · rw [hlen]; simp only [Nat.cast_ofNat, hmod]; omega
  · unfold selectExercise
    simp only [hlen, Nat.cast_ofNat, hmod]
    generalize t % 7 = i at h0 h7
    interval_cases i <;> simp [exercises]

/-- Witness of `selectExercise_nonneg`: a timestamp of late 2026. -/
theorem selectExercise_nonneg_witness :
    (0 : Int) ≤ 1793800000 ∧
    ∃ e, selectExercise 1793800000 = some e ∧ e ∈ exercises ∧
      e.Name ≠ "" ∧ e.Description ≠ "" ∧ e.Duration ≠ "" :=
  ⟨by decide, (selectExercise_nonneg 1793800000 (by decide)).2.2.2⟩

/-! ## Update: the progress fraction -/

/-- C1 as stated fails: when the elapsed time equals the duration (ten seconds into a
ten-second phase) `Update` returns the quit command and leaves `percent` at its old value
0; it is not set to 1. -/
theorem Update_tick_boundary_counterexample :
    0 < (initialModel ⟨40⟩ 0 (10 * second) "test" none).duration ∧
    since (10 * second) (initialModel ⟨40⟩ 0 (10 * second) "test" none).start
      = (initialModel ⟨40⟩ 0 (10 * second) "test" none).duration ∧
    (Update (10 * second) (initialModel ⟨40⟩ 0 (10 * second) "test" none) Msg.tick).2
      = some Cmd.quit ∧
    (Update (10 * second) (initialModel ⟨40⟩ 0 (10 * second) "test" none) Msg.tick).1.percent
      = F64.fin 0 ∧
    (Update (10 * second) (initialModel ⟨40⟩ 0 (10 * second) "test" none) Msg.tick).1.percent
      ≠ F64.fin 1 := by
  refine ⟨by decide, by decide, by decide, ?_, ?_⟩
  · have h : Update (10 * second) (initialModel ⟨40⟩ 0 (10 * second) "test" none) Msg.tick
        = (initialModel ⟨40⟩ 0 (10 * second) "test" none, some Cmd.quit) := by
      simp [Update, initialModel, since, second, maxInt64, minInt64]
    rw [h]
    rfl
  · have h : Update (10 * second) (initialModel ⟨40⟩ 0 (10 * second) "test" none) Msg.tick
        = (initialModel ⟨40⟩ 0 (10 * second) "test" none, some Cmd.quit) := by
      simp [Update, initialModel, since, second, maxInt64, minInt64]
    rw [h]
    simp [initialModel]

/-- C1, amended: for a model with duration > 0 and an elapsed time `e` with
`0 ≤ e < duration`, a tick sets `percent` to the float64 quotient `e / duration`, a finite
value of `[0, 1]` (so equal to its own clamp), the correctly rounded exact ratio whenever
the duration is below `2^53` ns, and returns the next-tick command; for `e ≥ duration`
(the boundary `e = duration` included) the tick returns the quit command and the model
unchanged, `percent` keeping its previous value. -/
theorem Update_tick_percent (now : Int) (m : model) (hd : 0 < m.duration)
    (he : 0 ≤ since now m.start) :
    (since now m.start < m.duration →
      (Update now m Msg.tick).2 = some tickCmd ∧
      (Update now m Msg.tick).1.percent = F64.quot (since now m.start) m.duration ∧
      ∃ q : ℚ, (Update now m Msg.tick).1.percent = F64.fin q ∧
        0 ≤ q ∧ q ≤ 1 ∧ max 0 (min q 1) = q ∧
        (m.duration < 9007199254740992 →
          q = F64.round ((since now m.start : ℚ) / (m.duration : ℚ)))) ∧
    (m.duration ≤ since now m.start → Update now m Msg.tick = (m, some Cmd.quit)) := by
  constructor
  · intro hlt
    have hnot : ¬ since now m.start ≥ m.duration := not_le.mpr hlt
    have hne : m.duration ≠ 0 := ne_of_gt hd
    have hunit := F64.quot_unit he hlt
    refine ⟨by simp [Update, hnot], by simp [Update, hnot], ?_⟩
    refine ⟨F64.round (F64.round (since now m.start) / F64.round m.duration), ?_,
      hunit.1, hunit.2, ?_, ?_⟩
    · simp [Update, hnot, F64.quot_of_ne hne]
    · rw [min_eq_left hunit.2, max_eq_right hunit.1]
    · intro hsmall
      rw [F64.round_intCast_of_lt (n := since now m.start) (by omega) (by omega),
        F64.round_intCast_of_lt (n := m.duration) (by omega) hsmall]
  · intro hge
    simp [Update, hge]

/-- Witness of `Update_tick_percent`: five seconds into a ten-second phase the fraction is
exactly one half. -/
theorem Update_tick_percent_witness :
    (0 : Int) < (initialModel ⟨40⟩ 0 (10 * second) "test" none).duration ∧
    0 ≤ since (5 * second) (initialModel ⟨40⟩ 0 (10 * second) "test" none).start ∧
    (Update (5 * second) (initialModel ⟨40⟩ 0 (10 * second) "test" none) Msg.tick).2
      = some tickCmd ∧
    (Update (5 * second) (initialModel ⟨40⟩ 0 (10 * second) "test" none) Msg.tick).1.percent
      = F64.fin (1 / 2) := by
  obtain ⟨hcmd, _, q, hq, _, _, _, hexact⟩ :=
    (Update_tick_percent (5 * second) (initialModel ⟨40⟩ 0 (10 * second) "test" none)
      (by decide) (by decide)).1 (by decide)
  refine ⟨by decide, by decide, hcmd, ?_⟩
  have e1 : since (5 * second) (initialModel ⟨40⟩ 0 (10 * second) "test" none).start
      = 5000000000 := by decide
  have e2 : (initialModel ⟨40⟩ 0 (10 * second) "test" none).duration = 10000000000 := by decide
  have e3 : ((5000000000 : Int) : ℚ) / ((10000000000 : Int) : ℚ) = (2 : ℚ) ^ (-1 : Int) := by
    norm_num
  rw [hq, hexact (by decide), e1, e2, e3, F64.round_zpow]
  norm_num

/-- Invariant of a phase run started at `s` with duration `d`, the clock having reached
`tlast`: the fraction is a finite value of `[0, 1]` below every fraction that a later tick
can compute. -/
theorem phase_invariant_step (s d tlast t : Int) (hd : 0 < d) (hs : s ≤ tlast) (ht : tlast ≤ t)
    (m : model) (msg : Msg) (hstart : m.start = s) (hdur : m.duration = d) (q : ℚ)
    (hq : m.percent = F64.fin q) (h0 : 0 ≤ q) (h1 : q ≤ 1)
    (hfut : ∀ u, tlast ≤ u → since u s < d → q ≤ F64.round (F64.round (since u s) / F64.round d)) :
    (Update t m msg).1.start = s ∧ (Update t m msg).1.duration = d ∧
    ∃ q' : ℚ, (Update t m msg).1.percent = F64.fin q' ∧ 0 ≤ q' ∧ q' ≤ 1 ∧ q ≤ q' ∧
      (msg ≠ Msg.tick → q' = q) ∧
      (∀ u, t ≤ u → since u s < d → q' ≤ F64.round (F64.round (since u s) / F64.round d)) := by
  subst hstart
  subst hdur
  have hkeep : ∀ u, t ≤ u → since u m.start < m.duration →
      q ≤ F64.round (F64.round (since u m.start) / F64.round m.duration) :=
    fun u hu hlt => hfut u (le_trans ht hu) hlt
  cases msg with
  | key k =>
    by_cases hk : k = "q" ∨ k = "ctrl+c"
    · refine ⟨by simp [Update, hk], by simp [Update, hk], q, by simp [Update, hk, hq],
        h0, h1, le_refl q, fun _ => rfl, hkeep⟩
    · refine ⟨by simp [Update, hk], by simp [Update, hk], q, by simp [Update, hk, hq],
        h0, h1, le_refl q, fun _ => rfl, hkeep⟩
  | windowSize a b =>
    by_cases hw : wrap64 (a - 20) > 80
    · refine ⟨by simp [Update, hw], by simp [Update, hw], q, by simp [Update, hw, hq],
        h0, h1, le_refl q, fun _ => rfl, hkeep⟩
    · refine ⟨by simp [Update, hw], by simp [Update, hw], q, by simp [Update, hw, hq],
        h0, h1, le_refl q, fun _ => rfl, hkeep⟩
  | other =>
    exact ⟨by simp [Update], by simp [Update], q, by simp [Update, hq],
      h0, h1, le_refl q, fun _ => rfl, hkeep⟩
  | tick =>
    by_cases hge : since t m.start ≥ m.duration
    · have hge' : m.duration ≤ since t m.start := hge
      exact ⟨by simp [Update, hge'], by simp [Update, hge'], q,
        by simp [Update, hge', hq], h0, h1, le_refl q, fun _ => rfl, hkeep⟩
    · have hlt : since t m.start < m.duration := not_le.mp hge
      have hnn : 0 ≤ since t m.start := since_nonneg (le_trans hs ht)
      have hunit := F64.quot_unit hnn hlt
      have hge' : ¬ m.duration ≤ since t m.start := hge
      refine ⟨by simp [Update, hge'], by simp [Update, hge'],
        F64.round (F64.round (since t m.start) / F64.round m.duration), ?_, hunit.1, hunit.2,
        hfut t ht hlt, fun h => absurd rfl h, ?_⟩
      · simp [Update, hge', F64.quot_of_ne (ne_of_gt hd)]
      · intro u hu _
        exact F64.quot_mono hd (since_mono hu)

/-- Along a run whose instants do not decrease, every single step keeps the fraction in
`[0, 1]`, does not lower it, and changes it only on a tick. -/
theorem phase_invariant_run (s d : Int) (hd : 0 < d) :
    ∀ (pre : List (Int × Msg)) (post : List (Int × Msg)) (t : Int) (msg : Msg) (tlast : Int)
      (m : model) (q : ℚ),
      s ≤ tlast → m.start = s → m.duration = d → m.percent = F64.fin q → 0 ≤ q → q ≤ 1 →
      (∀ u, tlast ≤ u → since u s < d → q ≤ F64.round (F64.round (since u s) / F64.round d)) →
      nondecreasingFrom tlast ((pre ++ (t, msg) :: post).map Prod.fst) = true →
      F64.inUnit (Update t (runUpdates m pre) msg).1.percent ∧
      F64.le (runUpdates m pre).percent (Update t (runUpdates m pre) msg).1.percent ∧
      (msg ≠ Msg.tick →
        (Update t (runUpdates m pre) msg).1.percent = (runUpdates m pre).percent) := by
  intro pre
  induction pre with
  | nil =>
    intro post t msg tlast m q hs hstart hdur hq h0 h1 hfut hchain
    have ht : tlast ≤ t := by
      simp only [List.nil_append, List.map_cons, nondecreasingFrom, Bool.and_eq_true,
        decide_eq_true_eq] at hchain
      exact hchain.1
    obtain ⟨_, _, q', hq', h0', h1', hle, hsame, _⟩ :=
      phase_invariant_step s d tlast t hd hs ht m msg hstart hdur q hq h0 h1 hfut
    simp only [runUpdates]
    rw [hq', hq]
    refine ⟨⟨h0', h1'⟩, hle, ?_⟩
    intro hmsg
    rw [hsame hmsg]
  | cons step pre ih =>
    intro post t msg tlast m q hs hstart hdur hq h0 h1 hfut hchain
    simp only [List.cons_append, List.map_cons, nondecreasingFrom, Bool.and_eq_true,
      decide_eq_true_eq] at hchain
    obtain ⟨hstart', hdur', q', hq', h0', h1', _, _, hfut'⟩ :=
      phase_invariant_step s d tlast step.1 hd hs hchain.1 m step.2 hstart hdur q hq h0 h1 hfut
    simp only [runUpdates]
    exact ih post t msg step.1 (Update step.1 m step.2).1 q' (le_trans hs hchain.1)
      hstart' hdur' hq' h0' h1' hfut' hchain.2

/-- C9: within a phase run, for the model made by `initialModel` with duration > 0 and
every sequence of ticks, key presses, window resizes and other messages handled by `Update`
at non-decreasing instants from the start on, `percent` lies in `[0, 1]` after every step
and is never smaller than before that step, and only a tick changes it. -/
theorem percent_monotone (p : ProgressModel) (start duration : Int) (phase : String)
    (exercise : Option Exercise) (hd : 0 < duration)
    (pre post : List (Int × Msg)) (t : Int) (msg : Msg)
    (hchain : nondecreasingFrom start ((pre ++ (t, msg) :: post).map Prod.fst) = true) :
    F64.inUnit
      (Update t (runUpdates (initialModel p start duration phase exercise) pre) msg).1.percent ∧
    F64.le (runUpdates (initialModel p start duration phase exercise) pre).percent
      (Update t (runUpdates (initialModel p start duration phase exercise) pre) msg).1.percent ∧
    (msg ≠ Msg.tick →
      (Update t (runUpdates (initialModel p start duration phase exercise) pre) msg).1.percent
        = (runUpdates (initialModel p start duration phase exercise) pre).percent) := by
  refine phase_invariant_run start duration hd pre post t msg start
    (initialModel p start duration phase exercise) 0 (le_refl _) rfl rfl rfl (le_refl _)
    zero_le_one ?_ hchain
  intro u hu hlt
  exact (F64.quot_unit (since_nonneg hu) hlt).1

/-- Witness of `percent_monotone`: a one-minute phase with a tick at 10 s, a resize at
20 s, a tick at 30 s and a late tick at 90 s; the step looked at is the tick at 30 s. -/
theorem percent_monotone_witness :
    F64.inUnit
      (Update (30 * second)
        (runUpdates (initialModel ⟨40⟩ 0 minute "Work Period" none)
          [(10 * second, Msg.tick), (20 * second, Msg.windowSize 100 50)]) Msg.tick).1.percent ∧
    F64.le
      (runUpdates (initialModel ⟨40⟩ 0 minute "Work Period" none)
        [(10 * second, Msg.tick), (20 * second, Msg.windowSize 100 50)]).percent
      (Update (30 * second)
        (runUpdates (initialModel ⟨40⟩ 0 minute "Work Period" none)
          [(10 * second, Msg.tick), (20 * second, Msg.windowSize 100 50)]) Msg.tick).1.percent :=
  ⟨(percent_monotone ⟨40⟩ 0 minute "Work Period" none (by decide)
      [(10 * second, Msg.tick), (20 * second, Msg.windowSize 100 50)]
      [(90 * second, Msg.tick)] (30 * second) Msg.tick (by decide)).1,
   (percent_monotone ⟨40⟩ 0 minute "Work Period" none (by decide)
      [(10 * second, Msg.tick), (20 * second, Msg.windowSize 100 50)]
      [(90 * second, Msg.tick)] (30 * second) Msg.tick (by decide)).2.1⟩

/-! ## View: the remaining time -/

/-- Go's remainder by a second at a non-negative duration. -/
theorem tmod_second_of_nonneg {d : Int} (h : 0 ≤ d) :
    Int.tmod d 1000000000 = d % 1000000000 := Int.tmod_eq_emod h (by decide)

/-- Go's remainder by a second at a negative duration. -/
theorem tmod_second_of_neg {d : Int} (h : d < 0) :
    Int.tmod d 1000000000 = -((-d) % 1000000000) := by
  have h1 : Int.tmod (-d) 1000000000 = (-d) % 1000000000 :=
    Int.tmod_eq_emod (by omega) (by decide)
  have h2 : Int.tmod (-d) 1000000000 = -Int.tmod d 1000000000 := by
    simp [Int.tmod_def, Int.neg_tdiv]
    ring
  omega

/-- Value of `Round(time.Second)` at a non-negative duration of `q` whole seconds and `r`
nanoseconds. -/
theorem DurationRound_second_nonneg (q r : Int) (hq : 0 ≤ q) (hr0 : 0 ≤ r) (hr1 : r < 1000000000)
    (hmax : 1000000000 * q + r ≤ maxInt64) :
    DurationRound (1000000000 * q + r) second =
      if 2 * r < 1000000000 then 1000000000 * q
      else if 1000000000 * (q + 1) ≤ maxInt64 then 1000000000 * (q + 1) else maxInt64 := by
  unfold maxInt64 at hmax
  have hd : ¬ (1000000000 * q + r < 0) := by omega
  have hm : (1000000000 * q + r) % 1000000000 = r := by omega
  simp only [DurationRound, second, lessThanHalf, wrap64, maxInt64, hd,
    tmod_second_of_nonneg (not_lt.mp hd), hm, if_false, decide_eq_true_eq]
  split_ifs <;> omega

/-- Value of `Round(time.Second)` at a negative duration of minus (`q` whole seconds and `r`
nanoseconds). -/
theorem DurationRound_second_neg (q r : Int) (hq : 0 ≤ q) (hr0 : 0 ≤ r) (hr1 : r < 1000000000)
    (hneg : 0 < 1000000000 * q + r) (hmin : minInt64 ≤ -(1000000000 * q + r)) :
    DurationRound (-(1000000000 * q + r)) second =
      if 2 * r < 1000000000 then -(1000000000 * q)
      else if minInt64 ≤ -(1000000000 * (q + 1)) then -(1000000000 * (q + 1)) else minInt64 := by
  unfold minInt64 at hmin
  have hd : -(1000000000 * q + r) < 0 := by omega
  have hm : (- -(1000000000 * q + r)) % 1000000000 = r := by omega
  simp only [DurationRound, second, lessThanHalf, wrap64, minInt64, hd,
    tmod_second_of_neg hd, hm, if_true, decide_eq_true_eq]
  split_ifs <;> omega

/-- Method `Round(time.Second)` gives the nearest whole number of seconds, a half going away from
zero, and the extreme duration when that number does not fit. -/
theorem DurationRound_second (d : Int) (h1 : minInt64 ≤ d) (h2 : d ≤ maxInt64) :
    (-9223372036500000000 < d → d < 9223372036500000000 →
      DurationRound d second % second = 0 ∧
      2 * (DurationRound d second - d) ≤ second ∧
      2 * (d - DurationRound d second) ≤ second ∧
      (2 * (DurationRound d second - d) = second → 0 ≤ d) ∧
      (2 * (d - DurationRound d second) = second → d < 0)) ∧
    (9223372036500000000 ≤ d → DurationRound d second = maxInt64) ∧
    (d ≤ -9223372036500000000 → DurationRound d second = minInt64) ∧
    (DurationRound d second < 0 ↔ 2 * d ≤ -second) := by
  by_cases hd : d < 0
  · obtain ⟨q, r, hqr, hq, hr0, hr1⟩ : ∃ q r : Int, d = -(1000000000 * q + r) ∧ 0 ≤ q ∧ 0 ≤ r ∧
        r < 1000000000 := ⟨(-d) / 1000000000, (-d) % 1000000000, by omega, by omega, by omega, by omega⟩
    subst hqr
    rw [DurationRound_second_neg q r hq hr0 hr1 (by omega) h1]
    simp only [minInt64, maxInt64, second] at h1 h2 ⊢
    have e1 : -(1000000000 * q) % 1000000000 = 0 :=
      Int.emod_eq_zero_of_dvd ⟨-q, by ring⟩
    have e2 : -(1000000000 * (q + 1)) % 1000000000 = 0 :=
      Int.emod_eq_zero_of_dvd ⟨-(q + 1), by ring⟩
    split_ifs <;>
      refine ⟨fun _ _ => ⟨?_, ?_, ?_, fun _ => ?_, fun _ => ?_⟩, fun _ => ?_, fun _ => ?_,
        ⟨fun _ => ?_, fun _ => ?_⟩⟩ <;>
      first | exact e1 | exact e2 | (clear e1 e2; omega)
  · obtain ⟨q, r, hqr, hq, hr0, hr1⟩ : ∃ q r : Int, d = 1000000000 * q + r ∧ 0 ≤ q ∧ 0 ≤ r ∧
        r < 1000000000 := ⟨d / 1000000000, d % 1000000000, by omega, by omega, by omega, by omega⟩
    subst hqr
    rw [DurationRound_second_nonneg q r hq hr0 hr1 h2]
    simp only [minInt64, maxInt64, second] at h1 h2 ⊢
    have e1 : (1000000000 * q) % 1000000000 = 0 :=
      Int.emod_eq_zero_of_dvd ⟨q, rfl⟩
    have e2 : (1000000000 * (q + 1)) % 1000000000 = 0 :=
      Int.emod_eq_zero_of_dvd ⟨q + 1, rfl⟩
    split_ifs <;>
      refine ⟨fun _ _ => ⟨?_, ?_, ?_, fun _ => ?_, fun _ => ?_⟩, fun _ => ?_, fun _ => ?_,
        ⟨fun _ => ?_, fun _ => ?_⟩⟩ <;>
      first | exact e1 | exact e2 | (clear e1 e2; omega)

/-- The elapsed time is a `time.Duration`. -/
theorem since_range (t s : Int) : minInt64 ≤ since t s ∧ since t s ≤ maxInt64 := by
  unfold since minInt64 maxInt64
  split_ifs <;> omega

/-- The view of a model that is not quitting and has no exercise. -/
theorem View_running_none (lib : TermLib) (now : Int) (m : model) (hq : m.quitting = false)
    (he : m.exercise = none) :
    View lib now m =
      "\n " ++ m.phase ++ " - " ++ lib.durationString (viewRemaining now m) ++ " remaining\n\n"
        ++ " " ++ lib.viewAs m.progress m.percent ++ "\n\n" ++ "\n Press q to quit\n" := by
  simp only [View, hq, he, String.append_assoc, Bool.false_eq_true, if_false]

/-- The view of a model that is not quitting and has an exercise attached. -/
theorem View_running_some (lib : TermLib) (now : Int) (m : model) (e : Exercise)
    (hq : m.quitting = false) (he : m.exercise = some e) :
    View lib now m =
      "\n " ++ m.phase ++ " - " ++ lib.durationString (viewRemaining now m) ++ " remaining\n\n"
        ++ " " ++ lib.viewAs m.progress m.percent ++ "\n\n"
        ++ lib.styleRender (" Exercise: " ++ e.Name ++ "\n")
        ++ " " ++ e.Description ++ "\n" ++ " " ++ e.Duration ++ "\n"
        ++ "\n Press q to quit\n" := by
  simp only [View, hq, he, String.append_assoc, Bool.false_eq_true, if_false]

/-- C4 as stated fails: three seconds into a one-second phase the view shows the remaining
time -2s, a negative value, where the claim has `max (1s - 3s) 0` rounded, that is 0. -/
theorem viewRemaining_negative_counterexample :
    (initialModel ⟨40⟩ 0 second "Work Period" none).quitting = false ∧
    (initialModel ⟨40⟩ 0 second "Work Period" none).start ≤ 3 * second ∧
    viewRemaining (3 * second) (initialModel ⟨40⟩ 0 second "Work Period" none) = -(2 * second) ∧
    viewRemaining (3 * second) (initialModel ⟨40⟩ 0 second "Work Period" none) < 0 ∧
    DurationRound (max ((initialModel ⟨40⟩ 0 second "Work Period" none).duration
      - (3 * second - (initialModel ⟨40⟩ 0 second "Work Period" none).start)) 0) second = 0 := by
  decide

/-- C4, amended: for a model that is not quitting, with a duration from 0 to the largest
`time.Duration`, and an instant `now ≥ start`, the remaining time printed by `View` is
`duration - elapsed` (elapsed being `time.Since(start)`, equal to `now - start` when that
fits a Duration) rounded to the nearest whole second, a half going away from zero, with no
floor at zero: it is negative exactly when the elapsed time exceeds the duration by half a
second or more, and not negative as long as the elapsed time is at most the duration.
Beyond 9223372036.5 s in magnitude the rounding saturates at the extreme Duration. -/
theorem viewRemaining_spec (lib : TermLib) (now : Int) (m : model) (hq : m.quitting = false)
    (hd0 : 0 ≤ m.duration) (hd1 : m.duration ≤ maxInt64) (hs : m.start ≤ now) :
    occursIn (lib.durationString (viewRemaining now m) ++ " remaining") (View lib now m) ∧
    (now - m.start ≤ maxInt64 → since now m.start = now - m.start) ∧
    (-9223372036500000000 < m.duration - since now m.start →
      m.duration - since now m.start < 9223372036500000000 →
      viewRemaining now m % second = 0 ∧
      2 * (viewRemaining now m - (m.duration - since now m.start)) ≤ second ∧
      2 * ((m.duration - since now m.start) - viewRemaining now m) ≤ second ∧
      (2 * (viewRemaining now m - (m.duration - since now m.start)) = second →
        0 ≤ m.duration - since now m.start) ∧
      (2 * ((m.duration - since now m.start) - viewRemaining now m) = second →
        m.duration - since now m.start < 0)) ∧
    (9223372036500000000 ≤ m.duration - since now m.start → viewRemaining now m = maxInt64) ∧
    (m.duration - since now m.start ≤ -9223372036500000000 → viewRemaining now m = minInt64) ∧
    (viewRemaining now m < 0 ↔ second ≤ 2 * (since now m.start - m.duration)) ∧
    (since now m.start ≤ m.duration → 0 ≤ viewRemaining now m) := by
  have hnn : 0 ≤ since now m.start := since_nonneg hs
  have hrange := since_range now m.start
  have hlo : minInt64 ≤ m.duration - since now m.start := by
    have := hrange.2
    unfold minInt64 maxInt64 at *
    omega
  have hhi : m.duration - since now m.start ≤ maxInt64 := by omega
  have hwrap : wrap64 (m.duration - since now m.start) = m.duration - since now m.start :=
    wrap64_of_range hlo hhi
  have hround := DurationRound_second (m.duration - since now m.start) hlo hhi
  have hview : viewRemaining now m = DurationRound (m.duration - since now m.start) second := by
    unfold viewRemaining
    rw [hwrap]
  rw [hview]
  obtain ⟨hmid, hsatmax, hsatmin, hneg⟩ := hround
  refine ⟨?_, ?_, hmid, hsatmax, hsatmin, ?_, ?_⟩
  · rw [← hview]
    have hlit : " remaining\n\n" = " remaining" ++ "\n\n" := by decide
    cases hex : m.exercise with
    | none =>
      refine ⟨"\n " ++ m.phase ++ " - ",
        "\n\n" ++ " " ++ lib.viewAs m.progress m.percent ++ "\n\n" ++ "\n Press q to quit\n", ?_⟩
      rw [View_running_none lib now m hq hex, hlit]
      simp only [String.append_assoc]
    | some e =>
      refine ⟨"\n " ++ m.phase ++ " - ",
        "\n\n" ++ " " ++ lib.viewAs m.progress m.percent ++ "\n\n"
          ++ lib.styleRender (" Exercise: " ++ e.Name ++ "\n")
          ++ " " ++ e.Description ++ "\n" ++ " " ++ e.Duration ++ "\n"
          ++ "\n Press q to quit\n", ?_⟩
      rw [View_running_some lib now m e hq hex, hlit]
      simp only [String.append_assoc]
  · intro hfit
    have := hrange
    unfold since minInt64 maxInt64 at *
    split_ifs <;> omega
  · constructor
    · intro h
      have := hneg.mp h
      unfold second at *
      omega
    · intro h
      apply hneg.mpr
      unfold second at *
      omega
  · intro hle
    by_contra hcon
    have := hneg.mp (not_le.mp hcon)
    unfold second at this
    omega

/-- Witness of `viewRemaining_spec`: three seconds into a one-second phase. -/
theorem viewRemaining_spec_witness :
    (initialModel ⟨40⟩ 0 second "Work Period" none).quitting = false ∧
    (initialModel ⟨40⟩ 0 second "Work Period" none).start ≤ 3 * second ∧
    (viewRemaining (3 * second) (initialModel ⟨40⟩ 0 second "Work Period" none) < 0 ↔
      second ≤ 2 * (since (3 * second) (initialModel ⟨40⟩ 0 second "Work Period" none).start
        - (initialModel ⟨40⟩ 0 second "Work Period" none).duration)) :=
  ⟨rfl, by decide,
   (viewRemaining_spec ⟨fun _ _ => "", fun x => x, fun _ => ""⟩ (3 * second)
      (initialModel ⟨40⟩ 0 second "Work Period" none) rfl (by decide) (by decide)
      (by decide)).2.2.2.2.2.1⟩

/-! ## View: what is shown -/

/-- C7: for a model with `quitting = true` the view is exactly "Stay Active!"; for a model
with `quitting = false` it contains the phase label, the progress indicator and the hint
"Press q to quit", and, when an exercise is attached, the rendered name line (hence the
Name itself as soon as the lipgloss rendering keeps the name text), the Description and the
Duration; with no exercise attached it consists of the header, the indicator and the hint
only. -/
theorem View_content (lib : TermLib) (now : Int) (m : model) :
    (m.quitting = true → View lib now m = "Stay Active!") ∧
    (m.quitting = false →
      occursIn m.phase (View lib now m) ∧
      occursIn (lib.viewAs m.progress m.percent) (View lib now m) ∧
      occursIn "Press q to quit" (View lib now m) ∧
      (∀ e, m.exercise = some e →
        occursIn (lib.styleRender (" Exercise: " ++ e.Name ++ "\n")) (View lib now m) ∧
        (occursIn e.Name (lib.styleRender (" Exercise: " ++ e.Name ++ "\n")) →
          occursIn e.Name (View lib now m)) ∧
        occursIn e.Description (View lib now m) ∧
        occursIn e.Duration (View lib now m)) ∧
      (m.exercise = none →
        View lib now m =
          "\n " ++ m.phase ++ " - " ++ lib.durationString (viewRemaining now m)
            ++ " remaining\n\n" ++ " " ++ lib.viewAs m.progress m.percent ++ "\n\n"
            ++ "\n Press q to quit\n")) := by
  constructor
  · intro hq
    simp [View, hq]
  · intro hq
    have hhint : "\n Press q to quit\n" = "\n " ++ "Press q to quit" ++ "\n" := by decide
    cases hex : m.exercise with
    | none =>
      have hv := View_running_none lib now m hq hex
      refine ⟨?_, ?_, ?_, ?_, ?_⟩
      · refine ⟨"\n ", " - " ++ lib.durationString (viewRemaining now m) ++ " remaining\n\n"
          ++ " " ++ lib.viewAs m.progress m.percent ++ "\n\n" ++ "\n Press q to quit\n", ?_⟩
        rw [hv]
        simp only [String.append_assoc]
      · refine ⟨"\n " ++ m.phase ++ " - " ++ lib.durationString (viewRemaining now m)
          ++ " remaining\n\n" ++ " ", "\n\n" ++ "\n Press q to quit\n", ?_⟩
        rw [hv]
        simp only [String.append_assoc]
      · refine ⟨"\n " ++ m.phase ++ " - " ++ lib.durationString (viewRemaining now m)
          ++ " remaining\n\n" ++ " " ++ lib.viewAs m.progress m.percent ++ "\n\n" ++ "\n ",
          "\n", ?_⟩
        rw [hv, hhint]
        simp only [String.append_assoc]
      · intro e he
        exact absurd he (by simp)
      · intro _
        exact hv
    | some e =>
      have hv := View_running_some lib now m e hq hex
      refine ⟨?_, ?_, ?_, ?_, ?_⟩
      · refine ⟨"\n ", " - " ++ lib.durationString (viewRemaining now m) ++ " remaining\n\n"
          ++ " " ++ lib.viewAs m.progress m.percent ++ "\n\n"
          ++ lib.styleRender (" Exercise: " ++ e.Name ++ "\n")
          ++ " " ++ e.Description ++ "\n" ++ " " ++ e.Duration ++ "\n"
          ++ "\n Press q to quit\n", ?_⟩
        rw [hv]
        simp only [String.append_assoc]
      · refine ⟨"\n " ++ m.phase ++ " - " ++ lib.durationString (viewRemaining now m)
          ++ " remaining\n\n" ++ " ",
          "\n\n" ++ lib.styleRender (" Exercise: " ++ e.Name ++ "\n")
          ++ " " ++ e.Description ++ "\n" ++ " " ++ e.Duration ++ "\n"
          ++ "\n Press q to quit\n", ?_⟩
        rw [hv]
        simp only [String.append_assoc]
      · refine ⟨"\n " ++ m.phase ++ " - " ++ lib.durationString (viewRemaining now m)
          ++ " remaining\n\n" ++ " " ++ lib.viewAs m.progress m.percent ++ "\n\n"
          ++ lib.styleRender (" Exercise: " ++ e.Name ++ "\n")
          ++ " " ++ e.Description ++ "\n" ++ " " ++ e.Duration ++ "\n" ++ "\n ",
          "\n", ?_⟩
        rw [hv, hhint]
        simp only [String.append_assoc]
      · intro e' he'
        have hee : e' = e := (Option.some.inj he').symm
        subst hee
        have hrender : occursIn (lib.styleRender (" Exercise: " ++ e'.Name ++ "\n"))
            (View lib now m) := by
          refine ⟨"\n " ++ m.phase ++ " - " ++ lib.durationString (viewRemaining now m)
            ++ " remaining\n\n" ++ " " ++ lib.viewAs m.progress m.percent ++ "\n\n",
            " " ++ e'.Description ++ "\n" ++ " " ++ e'.Duration ++ "\n"
            ++ "\n Press q to quit\n", ?_⟩
          rw [hv]
          simp only [String.append_assoc]
        refine ⟨hrender, ?_, ?_, ?_⟩
        · rintro ⟨a, b, hab⟩
          obtain ⟨c, d, hcd⟩ := hrender
          refine ⟨c ++ a, b ++ d, ?_⟩
          rw [hcd, hab]
          simp only [String.append_assoc]
        · refine ⟨"\n " ++ m.phase ++ " - " ++ lib.durationString (viewRemaining now m)
            ++ " remaining\n\n" ++ " " ++ lib.viewAs m.progress m.percent ++ "\n\n"
            ++ lib.styleRender (" Exercise: " ++ e'.Name ++ "\n") ++ " ",
            "\n" ++ " " ++ e'.Duration ++ "\n" ++ "\n Press q to quit\n", ?_⟩
          rw [hv]
          simp only [String.append_assoc]
        · refine ⟨"\n " ++ m.phase ++ " - " ++ lib.durationString (viewRemaining now m)
            ++ " remaining\n\n" ++ " " ++ lib.viewAs m.progress m.percent ++ "\n\n"
            ++ lib.styleRender (" Exercise: " ++ e'.Name ++ "\n")
            ++ " " ++ e'.Description ++ "\n" ++ " ",
            "\n" ++ "\n Press q to quit\n", ?_⟩
          rw [hv]
          simp only [String.append_assoc]
      · intro hnone
        exact absurd hnone (by simp)

/-- Witness of `View_content`: the break view of the test, with a rendering that leaves
the text as it is. -/
theorem View_content_witness :
    (initialModel ⟨40⟩ 0 minute "Test Phase"
      (some ⟨"Test Exercise", "Test Description", "Test Duration"⟩)).quitting = false ∧
    occursIn "Test Phase" (View ⟨fun _ _ => "[bar]", fun x => x, fun _ => "1m0s"⟩ 0
      (initialModel ⟨40⟩ 0 minute "Test Phase"
        (some ⟨"Test Exercise", "Test Description", "Test Duration"⟩))) ∧
    occursIn "Test Exercise" (View ⟨fun _ _ => "[bar]", fun x => x, fun _ => "1m0s"⟩ 0
      (initialModel ⟨40⟩ 0 minute "Test Phase"
        (some ⟨"Test Exercise", "Test Description", "Test Duration"⟩))) ∧
    View ⟨fun _ _ => "[bar]", fun x => x, fun _ => "1m0s"⟩ 0
      { initialModel ⟨40⟩ 0 minute "Test Phase" none with quitting := true } = "Stay Active!" :=
  ⟨rfl,
   ((View_content ⟨fun _ _ => "[bar]", fun x => x, fun _ => "1m0s"⟩ 0
      (initialModel ⟨40⟩ 0 minute "Test Phase"
        (some ⟨"Test Exercise", "Test Description", "Test Duration"⟩))).2 rfl).1,
   (((View_content ⟨fun _ _ => "[bar]", fun x => x, fun _ => "1m0s"⟩ 0
      (initialModel ⟨40⟩ 0 minute "Test Phase"
        (some ⟨"Test Exercise", "Test Description", "Test Duration"⟩))).2 rfl).2.2.2.1
      ⟨"Test Exercise", "Test Description", "Test Duration"⟩ rfl).2.1
      ⟨" Exercise: ", "\n", rfl⟩,
   (View_content ⟨fun _ _ => "[bar]", fun x => x, fun _ => "1m0s"⟩ 0
      { initialModel ⟨40⟩ 0 minute "Test Phase" none with quitting := true }).1 rfl⟩

/-! ## The session loop -/

/-- A timer run reports an error exactly when the program run does; the final model plays
no part. -/
theorem runTimer_eq_none_iff (w : World) (k : Nat) (duration : Int) (phase : String)
    (exercise : Option Exercise) :
    runTimer w k duration phase exercise = none ↔
      (w.teaRun k (initialModel w.progressNew (w.nowMono k) duration phase exercise)).2 = none := by
  unfold runTimer
  cases (w.teaRun k (initialModel w.progressNew (w.nowMono k) duration phase exercise)).2 <;> simp

/-- C3 as stated fails: in a world where the Work-phase run ends because the user pressed
the quit key (final model with `quitting = true`, no error), the loop still sends the break
notification, runs the Break-phase timer and, that one cancelled too, prompts for the next
session. -/
theorem sessionLoop_cancel_counterexample :
    (cancelWorld.teaRun 0 (initialModel cancelWorld.progressNew (cancelWorld.nowMono 0)
      (25 * minute) "Work Period" none)).1.quitting = true ∧
    (cancelWorld.teaRun 0 (initialModel cancelWorld.progressNew (cancelWorld.nowMono 0)
      (25 * minute) "Work Period" none)).2 = none ∧
    Event.notify "Break Time" "Time for Push-ups" none
      ∈ (main cancelWorld ["moveit", "25", "5"] 1).1 ∧
    Event.runTimer (5 * minute) "Break Period" (exercises.get? 0)
      ∈ (main cancelWorld ["moveit", "25", "5"] 1).1 ∧
    Event.print "Press Enter to start next session or press 'q' to quit: "
      ∈ (main cancelWorld ["moveit", "25", "5"] 1).1 := by
  decide

/-- A timer run reports the wrapped error of the program run. -/
theorem runTimer_of_error (w : World) (k : Nat) (duration : Int) (phase : String)
    (exercise : Option Exercise) (err : String)
    (h : (w.teaRun k (initialModel w.progressNew (w.nowMono k) duration phase exercise)).2
      = some err) :
    runTimer w k duration phase exercise = some ("timer error : " ++ err) := by
  unfold runTimer
  rw [h]

/-- An error of the Work-phase run ends the program with status 1 after the error is printed. -/
theorem sessionLoop_work_failed (w : World) (workMinutes workDuration breakDuration : Int)
    (fuel i : Nat) :
    (∀ err : String,
      (w.teaRun (2 * i) (initialModel w.progressNew (w.nowMono (2 * i)) workDuration
        "Work Period" none)).2 = some err →
      sessionLoop w workMinutes workDuration breakDuration (fuel + 1) i =
        ([Event.notify "Work Period Starting"
            ("Focus for the next " ++ toString workMinutes ++ " minutes`")
            (sendMacNotification (w.osascript (3 * i)) "Work Period Starting"
              ("Focus for the next " ++ toString workMinutes ++ " minutes`")),
          Event.runTimer workDuration "Work Period" none,
          Event.print ("error " ++ ("timer error : " ++ err) ++ "\n")], Outcome.exit 1)) := by
  intro err hwork
  have hw := runTimer_of_error w (2 * i) workDuration "Work Period" none err hwork
  simp only [sessionLoop, hw]

/-- An index out of the catalog after the Work phase is a panic. -/
theorem sessionLoop_index_panic (w : World) (workMinutes workDuration breakDuration : Int)
    (fuel i : Nat) :
    ((w.teaRun (2 * i) (initialModel w.progressNew (w.nowMono (2 * i)) workDuration
        "Work Period" none)).2 = none →
      selectExercise (w.nowUnix i) = none →
      sessionLoop w workMinutes workDuration breakDuration (fuel + 1) i =
        ([Event.notify "Work Period Starting"
            ("Focus for the next " ++ toString workMinutes ++ " minutes`")
            (sendMacNotification (w.osascript (3 * i)) "Work Period Starting"
              ("Focus for the next " ++ toString workMinutes ++ " minutes`")),
          Event.runTimer workDuration "Work Period" none], Outcome.panicked)) := by
  intro hwork hsel
  have hw : runTimer w (2 * i) workDuration "Work Period" none = none :=
    (runTimer_eq_none_iff w (2 * i) workDuration "Work Period" none).mpr hwork
  simp only [sessionLoop, hw, hsel]

/-- An error of the Break-phase run ends the program with status 1 after the error is printed. -/
theorem sessionLoop_break_failed (w : World) (workMinutes workDuration breakDuration : Int)
    (fuel i : Nat) :
    (∀ (e : Exercise) (err : String),
      (w.teaRun (2 * i) (initialModel w.progressNew (w.nowMono (2 * i)) workDuration
        "Work Period" none)).2 = none →
      selectExercise (w.nowUnix i) = some e →
      (w.teaRun (2 * i + 1) (initialModel w.progressNew (w.nowMono (2 * i + 1)) breakDuration
        "Break Period" (some e))).2 = some err →
      sessionLoop w workMinutes workDuration breakDuration (fuel + 1) i =
        ([Event.notify "Work Period Starting"
            ("Focus for the next " ++ toString workMinutes ++ " minutes`")
            (sendMacNotification (w.osascript (3 * i)) "Work Period Starting"
              ("Focus for the next " ++ toString workMinutes ++ " minutes`")),
          Event.runTimer workDuration "Work Period" none,
          Event.notify "Break Time" ("Time for " ++ e.Name)
            (sendMacNotification (w.osascript (3 * i + 1)) "Break Time" ("Time for " ++ e.Name)),
          Event.runTimer breakDuration "Break Period" (some e),
          Event.print ("error " ++ ("timer error : " ++ err) ++ "\n")], Outcome.exit 1)) := by
  intro e err hwork hsel hbreak
  have hw : runTimer w (2 * i) workDuration "Work Period" none = none :=
    (runTimer_eq_none_iff w (2 * i) workDuration "Work Period" none).mpr hwork
  have hb := runTimer_of_error w (2 * i + 1) breakDuration "Break Period" (some e) err hbreak
  simp only [sessionLoop, hw, hsel, hb]

/-- After both phases the answer "q" ends the loop by return from `main`. -/
theorem sessionLoop_answer_q (w : World) (workMinutes workDuration breakDuration : Int)
    (fuel i : Nat) :
    (∀ e : Exercise,
      (w.teaRun (2 * i) (initialModel w.progressNew (w.nowMono (2 * i)) workDuration
        "Work Period" none)).2 = none →
      selectExercise (w.nowUnix i) = some e →
      (w.teaRun (2 * i + 1) (initialModel w.progressNew (w.nowMono (2 * i + 1)) breakDuration
        "Break Period" (some e))).2 = none →
      w.scanln i = "q" →
      sessionLoop w workMinutes workDuration breakDuration (fuel + 1) i =
        ([Event.notify "Work Period Starting"
            ("Focus for the next " ++ toString workMinutes ++ " minutes`")
            (sendMacNotification (w.osascript (3 * i)) "Work Period Starting"
              ("Focus for the next " ++ toString workMinutes ++ " minutes`")),
          Event.runTimer workDuration "Work Period" none,
          Event.notify "Break Time" ("Time for " ++ e.Name)
            (sendMacNotification (w.osascript (3 * i + 1)) "Break Time" ("Time for " ++ e.Name)),
          Event.runTimer breakDuration "Break Period" (some e),
          Event.notify "Time to Focus" "Good Job, Start Focus Time"
            (sendMacNotification (w.osascript (3 * i + 2)) "Time to Focus"
              "Good Job, Start Focus Time"),
          Event.print "Press Enter to start next session or press 'q' to quit: ",
          Event.scanln (w.scanln i)], Outcome.returned)) := by
  intro e hwork hsel hbreak hq
  have hw : runTimer w (2 * i) workDuration "Work Period" none = none :=
    (runTimer_eq_none_iff w (2 * i) workDuration "Work Period" none).mpr hwork
  have hb : runTimer w (2 * i + 1) breakDuration "Break Period" (some e) = none :=
    (runTimer_eq_none_iff w (2 * i + 1) breakDuration "Break Period" (some e)).mpr hbreak
  simp only [sessionLoop, hw, hsel, hb, hq, if_true]

/-- After both phases any answer other than "q" starts the next session. -/
theorem sessionLoop_answer_other (w : World) (workMinutes workDuration breakDuration : Int)
    (fuel i : Nat) :
    (∀ e : Exercise,
      (w.teaRun (2 * i) (initialModel w.progressNew (w.nowMono (2 * i)) workDuration
        "Work Period" none)).2 = none →
      selectExercise (w.nowUnix i) = some e →
      (w.teaRun (2 * i + 1) (initialModel w.progressNew (w.nowMono (2 * i + 1)) breakDuration
        "Break Period" (some e))).2 = none →
      w.scanln i ≠ "q" →
      sessionLoop w workMinutes workDuration breakDuration (fuel + 1) i =
        ([Event.notify "Work Period Starting"
            ("Focus for the next " ++ toString workMinutes ++ " minutes`")
            (sendMacNotification (w.osascript (3 * i)) "Work Period Starting"
              ("Focus for the next " ++ toString workMinutes ++ " minutes`")),
          Event.runTimer workDuration "Work Period" none,
          Event.notify "Break Time" ("Time for " ++ e.Name)
            (sendMacNotification (w.osascript (3 * i + 1)) "Break Time" ("Time for " ++ e.Name)),
          Event.runTimer breakDuration "Break Period" (some e),
          Event.notify "Time to Focus" "Good Job, Start Focus Time"
            (sendMacNotification (w.osascript (3 * i + 2)) "Time to Focus"
              "Good Job, Start Focus Time"),
          Event.print "Press Enter to start next session or press 'q' to quit: ",
          Event.scanln (w.scanln i)]
          ++ (sessionLoop w workMinutes workDuration breakDuration fuel (i + 1)).1,
         (sessionLoop w workMinutes workDuration breakDuration fuel (i + 1)).2)) := by
  intro e hwork hsel hbreak hq
  have hw : runTimer w (2 * i) workDuration "Work Period" none = none :=
    (runTimer_eq_none_iff w (2 * i) workDuration "Work Period" none).mpr hwork
  have hb : runTimer w (2 * i + 1) breakDuration "Break Period" (some e) = none :=
    (runTimer_eq_none_iff w (2 * i + 1) breakDuration "Break Period" (some e)).mpr hbreak
  simp only [sessionLoop, hw, hsel, hb, hq, if_false]

/-- C3, amended: the final model of a timer run, hence whether the user cancelled it, has
no influence on the session loop of `main`. An iteration sends the work-start notification
and runs the Work-phase timer. When that run returns without a runtime error the loop
selects the exercise (an index outside the catalog is a panic), sends the break
notification and runs the Break-phase timer; when that run returns without a runtime error
the loop sends the time-to-focus notification, prompts and reads the answer. The loop ends
only on an error of a timer run of either phase (error printed, exit status 1, nothing
further run), on that panic, or on the answer "q" (return from `main`); every other answer
starts the next session. -/
theorem sessionLoop_ignores_cancel (w : World) (final : Nat → model → model)
    (workMinutes workDuration breakDuration : Int) (fuel i : Nat) :
    sessionLoop { w with teaRun := fun k m => (final k m, (w.teaRun k m).2) }
        workMinutes workDuration breakDuration fuel i
      = sessionLoop w workMinutes workDuration breakDuration fuel i ∧
    (∀ a b c : String,
      main w [a, b, c] fuel =
        sessionLoop w (w.atoi b) (wrap64 (w.atoi b * minute)) (wrap64 (w.atoi c * minute))
          fuel 0) ∧
    (∀ err : String,
      (w.teaRun (2 * i) (initialModel w.progressNew (w.nowMono (2 * i)) workDuration
        "Work Period" none)).2 = some err →
      sessionLoop w workMinutes workDuration breakDuration (fuel + 1) i =
        ([Event.notify "Work Period Starting"
            ("Focus for the next " ++ toString workMinutes ++ " minutes`")
            (sendMacNotification (w.osascript (3 * i)) "Work Period Starting"
              ("Focus for the next " ++ toString workMinutes ++ " minutes`")),
          Event.runTimer workDuration "Work Period" none,
          Event.print ("error " ++ ("timer error : " ++ err) ++ "\n")], Outcome.exit 1)) ∧
    ((w.teaRun (2 * i) (initialModel w.progressNew (w.nowMono (2 * i)) workDuration
        "Work Period" none)).2 = none →
      selectExercise (w.nowUnix i) = none →
      sessionLoop w workMinutes workDuration breakDuration (fuel + 1) i =
        ([Event.notify "Work Period Starting"
            ("Focus for the next " ++ toString workMinutes ++ " minutes`")
            (sendMacNotification (w.osascript (3 * i)) "Work Period Starting"
              ("Focus for the next " ++ toString workMinutes ++ " minutes`")),
          Event.runTimer workDuration "Work Period" none], Outcome.panicked)) ∧
    (∀ (e : Exercise) (err : String),
      (w.teaRun (2 * i) (initialModel w.progressNew (w.nowMono (2 * i)) workDuration
        "Work Period" none)).2 = none →
      selectExercise (w.nowUnix i) = some e →
      (w.teaRun (2 * i + 1) (initialModel w.progressNew (w.nowMono (2 * i + 1)) breakDuration
        "Break Period" (some e))).2 = some err →
      sessionLoop w workMinutes workDuration breakDuration (fuel + 1) i =
        ([Event.notify "Work Period Starting"
            ("Focus for the next " ++ toString workMinutes ++ " minutes`")
            (sendMacNotification (w.osascript (3 * i)) "Work Period Starting"
              ("Focus for the next " ++ toString workMinutes ++ " minutes`")),
          Event.runTimer workDuration "Work Period" none,
          Event.notify "Break Time" ("Time for " ++ e.Name)
            (sendMacNotification (w.osascript (3 * i + 1)) "Break Time" ("Time for " ++ e.Name)),
          Event.runTimer breakDuration "Break Period" (some e),
          Event.print ("error " ++ ("timer error : " ++ err) ++ "\n")], Outcome.exit 1)) ∧
    (∀ e : Exercise,
      (w.teaRun (2 * i) (initialModel w.progressNew (w.nowMono (2 * i)) workDuration
        "Work Period" none)).2 = none →
      selectExercise (w.nowUnix i) = some e →
      (w.teaRun (2 * i + 1) (initialModel w.progressNew (w.nowMono (2 * i + 1)) breakDuration
        "Break Period" (some e))).2 = none →
      w.scanln i = "q" →
      sessionLoop w workMinutes workDuration breakDuration (fuel + 1) i =
        ([Event.notify "Work Period Starting"
            ("Focus for the next " ++ toString workMinutes ++ " minutes`")
            (sendMacNotification (w.osascript (3 * i)) "Work Period Starting"
              ("Focus for the next " ++ toString workMinutes ++ " minutes`")),
          Event.runTimer workDuration "Work Period" none,
          Event.notify "Break Time" ("Time for " ++ e.Name)
            (sendMacNotification (w.osascript (3 * i + 1)) "Break Time" ("Time for " ++ e.Name)),
          Event.runTimer breakDuration "Break Period" (some e),
          Event.notify "Time to Focus" "Good Job, Start Focus Time"
            (sendMacNotification (w.osascript (3 * i + 2)) "Time to Focus"
              "Good Job, Start Focus Time"),
          Event.print "Press Enter to start next session or press 'q' to quit: ",
          Event.scanln (w.scanln i)], Outcome.returned)) ∧
    (∀ e : Exercise,
      (w.teaRun (2 * i) (initialModel w.progressNew (w.nowMono (2 * i)) workDuration
        "Work Period" none)).2 = none →
      selectExercise (w.nowUnix i) = some e →
      (w.teaRun (2 * i + 1) (initialModel w.progressNew (w.nowMono (2 * i + 1)) breakDuration
        "Break Period" (some e))).2 = none →
      w.scanln i ≠ "q" →
      sessionLoop w workMinutes workDuration breakDuration (fuel + 1) i =
        ([Event.notify "Work Period Starting"
            ("Focus for the next " ++ toString workMinutes ++ " minutes`")
            (sendMacNotification (w.osascript (3 * i)) "Work Period Starting"
              ("Focus for the next " ++ toString workMinutes ++ " minutes`")),
          Event.runTimer workDuration "Work Period" none,
          Event.notify "Break Time" ("Time for " ++ e.Name)
            (sendMacNotification (w.osascript (3 * i + 1)) "Break Time" ("Time for " ++ e.Name)),
          Event.runTimer breakDuration "Break Period" (some e),
          Event.notify "Time to Focus" "Good Job, Start Focus Time"
            (sendMacNotification (w.osascript (3 * i + 2)) "Time to Focus"
              "Good Job, Start Focus Time"),
          Event.print "Press Enter to start next session or press 'q' to quit: ",
          Event.scanln (w.scanln i)]
          ++ (sessionLoop w workMinutes workDuration breakDuration fuel (i + 1)).1,
         (sessionLoop w workMinutes workDuration breakDuration fuel (i + 1)).2)) := by
  refine ⟨?_, fun _ _ _ => rfl,
    sessionLoop_work_failed w workMinutes workDuration breakDuration fuel i,
    sessionLoop_index_panic w workMinutes workDuration breakDuration fuel i,
    sessionLoop_break_failed w workMinutes workDuration breakDuration fuel i,
    sessionLoop_answer_q w workMinutes workDuration breakDuration fuel i,
    sessionLoop_answer_other w workMinutes workDuration breakDuration fuel i⟩
  induction fuel generalizing i with
  | zero => rfl
  | succ n ih =>
    simp only [sessionLoop, runTimer]
    rw [ih (i + 1)]

/-- Witness of `sessionLoop_ignores_cancel`: in `cancelWorld` both phases are cancelled by
the quit key, and the session still goes through the break notification, the break timer,
the time-to-focus notification and the prompt. -/
theorem sessionLoop_ignores_cancel_witness :
    (cancelWorld.teaRun (2 * 0) (initialModel cancelWorld.progressNew
      (cancelWorld.nowMono (2 * 0)) (25 * minute) "Work Period" none)).1.quitting = true ∧
    sessionLoop cancelWorld 25 (25 * minute) (5 * minute) (0 + 1) 0 =
      ([Event.notify "Work Period Starting"
          ("Focus for the next " ++ toString (25 : Int) ++ " minutes`")
          (sendMacNotification (cancelWorld.osascript (3 * 0)) "Work Period Starting"
            ("Focus for the next " ++ toString (25 : Int) ++ " minutes`")),
        Event.runTimer (25 * minute) "Work Period" none,
        Event.notify "Break Time" ("Time for " ++ "Push-ups")
          (sendMacNotification (cancelWorld.osascript (3 * 0 + 1)) "Break Time"
            ("Time for " ++ "Push-ups")),
        Event.runTimer (5 * minute) "Break Period"
          (some ⟨"Push-ups", "Place your hands shoulder-width apart, keep your body straight, lower yourself until your chest nearly touches the ground, then push back up.", "Do 3 sets of 15 repetitions"⟩),
        Event.notify "Time to Focus" "Good Job, Start Focus Time"
          (sendMacNotification (cancelWorld.osascript (3 * 0 + 2)) "Time to Focus"
            "Good Job, Start Focus Time"),
        Event.print "Press Enter to start next session or press 'q' to quit: ",
        Event.scanln (cancelWorld.scanln 0)], Outcome.returned) :=
  ⟨rfl,
   (sessionLoop_ignores_cancel cancelWorld (fun _ m => m) 25 (25 * minute) (5 * minute)
      0 0).2.2.2.2.2.1
      ⟨"Push-ups", "Place your hands shoulder-width apart, keep your body straight, lower yourself until your chest nearly touches the ground, then push back up.", "Do 3 sets of 15 repetitions"⟩
      rfl (by decide) rfl rfl⟩

/-- C10 as stated fails: in a world where every notifier call fails, `sendMacNotification`
returns the wrapped error, yet the program runs the work and the break timer and, on the
answer "q", returns from `main` (exit status 0). -/
theorem sessionLoop_notify_counterexample :
    sendMacNotification (failWorld.osascript 0) "Work Period Starting"
        "Focus for the next 25 minutes`"
      = some "notification error: exit status 1, output: execution error" ∧
    Event.runTimer (25 * minute) "Work Period" none
      ∈ (main failWorld ["moveit", "25", "5"] 1).1 ∧
    Event.runTimer (5 * minute) "Break Period" (exercises.get? 0)
      ∈ (main failWorld ["moveit", "25", "5"] 1).1 ∧
    (main failWorld ["moveit", "25", "5"] 1).2 = Outcome.returned ∧
    (main failWorld ["moveit", "25", "5"] 1).2 ≠ Outcome.exit 1 := by
  decide

/-- C10, amended: a failing notifier call is wrapped with context by `sendMacNotification`
("notification error: ..., output: ..."), but the session loop drops the returned error:
with any other notifier results the program makes the same calls in the same order and
ends the same way, and while no timer run fails the program never exits through
`os.Exit`. Only an error of a timer run, of the Work phase or of the Break phase, is fatal:
it is printed, no further phase is run and the program exits with status 1. -/
theorem sessionLoop_ignores_notification_errors (w : World)
    (osa : Nat → String → String × Option String)
    (workMinutes workDuration breakDuration : Int) (fuel i : Nat) :
    (∀ (exec : String → String × Option String) (title message output err : String),
      exec (notificationScript title message) = (output, some err) →
      sendMacNotification exec title message
        = some ("notification error: " ++ err ++ ", output: " ++ output)) ∧
    (sessionLoop { w with osascript := osa } workMinutes workDuration breakDuration fuel i).2
      = (sessionLoop w workMinutes workDuration breakDuration fuel i).2 ∧
    (sessionLoop { w with osascript := osa } workMinutes workDuration breakDuration fuel i).1.map
        Event.eraseResult
      = (sessionLoop w workMinutes workDuration breakDuration fuel i).1.map Event.eraseResult ∧
    (∀ err, runTimer w (2 * i) workDuration "Work Period" none = some err →
      sessionLoop w workMinutes workDuration breakDuration (fuel + 1) i =
        ([Event.notify "Work Period Starting"
            ("Focus for the next " ++ toString workMinutes ++ " minutes`")
            (sendMacNotification (w.osascript (3 * i)) "Work Period Starting"
              ("Focus for the next " ++ toString workMinutes ++ " minutes`")),
          Event.runTimer workDuration "Work Period" none,
          Event.print ("error " ++ err ++ "\n")], Outcome.exit 1)) ∧
    (∀ err : String,
      (w.teaRun (2 * i) (initialModel w.progressNew (w.nowMono (2 * i)) workDuration
        "Work Period" none)).2 = some err →
      sessionLoop w workMinutes workDuration breakDuration (fuel + 1) i =
        ([Event.notify "Work Period Starting"
            ("Focus for the next " ++ toString workMinutes ++ " minutes`")
            (sendMacNotification (w.osascript (3 * i)) "Work Period Starting"
              ("Focus for the next " ++ toString workMinutes ++ " minutes`")),
          Event.runTimer workDuration "Work Period" none,
          Event.print ("error " ++ ("timer error : " ++ err) ++ "\n")], Outcome.exit 1)) ∧
    (∀ (e : Exercise) (err : String),
      (w.teaRun (2 * i) (initialModel w.progressNew (w.nowMono (2 * i)) workDuration
        "Work Period" none)).2 = none →
      selectExercise (w.nowUnix i) = some e →
      (w.teaRun (2 * i + 1) (initialModel w.progressNew (w.nowMono (2 * i + 1)) breakDuration
        "Break Period" (some e))).2 = some err →
      sessionLoop w workMinutes workDuration breakDuration (fuel + 1) i =
        ([Event.notify "Work Period Starting"
            ("Focus for the next " ++ toString workMinutes ++ " minutes`")
            (sendMacNotification (w.osascript (3 * i)) "Work Period Starting"
              ("Focus for the next " ++ toString workMinutes ++ " minutes`")),
          Event.runTimer workDuration "Work Period" none,
          Event.notify "Break Time" ("Time for " ++ e.Name)
            (sendMacNotification (w.osascript (3 * i + 1)) "Break Time" ("Time for " ++ e.Name)),
          Event.runTimer breakDuration "Break Period" (some e),
          Event.print ("error " ++ ("timer error : " ++ err) ++ "\n")], Outcome.exit 1)) ∧
    ((∀ (k : Nat) (m : model), (w.teaRun k m).2 = none) →
      ∀ code : Int,
        (sessionLoop w workMinutes workDuration breakDuration fuel i).2 ≠ Outcome.exit code) := by
  refine ⟨?_, ?_, ?_, ?_,
    sessionLoop_work_failed w workMinutes workDuration breakDuration fuel i,
    sessionLoop_break_failed w workMinutes workDuration breakDuration fuel i, ?_⟩
  · intro exec title message output err h
    simp [sendMacNotification, h]
  · induction fuel generalizing i with
    | zero => rfl
    | succ n ih =>
      simp only [sessionLoop, runTimer]
      split
      · rfl
      · split
        · rfl
        · split
          · rfl
          · split
            · rfl
            · exact ih (i + 1)
  · induction fuel generalizing i with
    | zero => rfl
    | succ n ih =>
      simp only [sessionLoop, runTimer]
      split
      · rfl
      · split
        · rfl
        · split
          · rfl
          · split
            · rfl
            · simp only [List.map_append, ih (i + 1)]
              rfl
  · intro err h
    simp only [sessionLoop, h]
  · intro hok
    induction fuel generalizing i with
    | zero =>
      intro code h
      simp [sessionLoop] at h
    | succ n ih =>
      intro code
      simp only [sessionLoop, runTimer, hok]
      split
      · simp
      · split
        · simp
        · exact ih (i + 1) code

/-- Witness of `sessionLoop_ignores_notification_errors`: the failing notifier of
`failWorld` against a succeeding one, and the failing Break-phase run of `breakFailWorld`. -/
theorem sessionLoop_ignores_notification_errors_witness :
    sendMacNotification (failWorld.osascript 0) "Break Time" "Time for Plank"
      = some ("notification error: " ++ "exit status 1" ++ ", output: " ++ "execution error") ∧
    (sessionLoop { failWorld with osascript := fun _ _ => ("", none) } 25 (25 * minute)
        (5 * minute) 3 0).2
      = (sessionLoop failWorld 25 (25 * minute) (5 * minute) 3 0).2 ∧
    (sessionLoop breakFailWorld 25 (25 * minute) (5 * minute) (2 + 1) 0).2 = Outcome.exit 1 ∧
    (∀ code : Int,
      (sessionLoop failWorld 25 (25 * minute) (5 * minute) 3 0).2 ≠ Outcome.exit code) :=
  ⟨(sessionLoop_ignores_notification_errors failWorld (fun _ _ => ("", none)) 25 (25 * minute)
      (5 * minute) 3 0).1 (failWorld.osascript 0) "Break Time" "Time for Plank"
      "execution error" "exit status 1" rfl,
   (sessionLoop_ignores_notification_errors failWorld (fun _ _ => ("", none)) 25 (25 * minute)
      (5 * minute) 3 0).2.1,
   congrArg Prod.snd
     ((sessionLoop_ignores_notification_errors breakFailWorld (fun _ _ => ("", none)) 25
        (25 * minute) (5 * minute) 2 0).2.2.2.2.2.1
        ⟨"Push-ups", "Place your hands shoulder-width apart, keep your body straight, lower yourself until your chest nearly touches the ground, then push back up.", "Do 3 sets of 15 repetitions"⟩
        "could not open a new TTY" rfl (by decide) rfl),
   (sessionLoop_ignores_notification_errors failWorld (fun _ _ => ("", none)) 25 (25 * minute)
      (5 * minute) 3 0).2.2.2.2.2.2 (fun _ _ => rfl)⟩

end Moveit
